import Mathlib

/-!
# SQP method of CasADi (`nonlinear_programming/sqp_internal.cpp`)

A shallow embedding of `SQPInternal::evaluate` and a verification of its
specified properties.

## Number model

The C++ code computes with `double`.  A `double` is modelled by `Dbl`: an exact
rational, or one of the three IEEE special values `+inf`, `-inf`, `NaN`.
Arithmetic on finite values is exact (no rounding, no overflow, one unsigned
zero, a decimal literal is the decimal it denotes); arithmetic that meets a
special value, and division by zero, follow the IEEE rules.  Comparisons with
`NaN` are false.

## Data model

A `DMatrix` is a dense vector `Vec n` or matrix `Mat m n` whose shape is part of
its type.  The function objects `F_`, `G_`, `J_`, `H_`, the observer and the QP
solver are functions from their inputs to their outputs; a null function object
is `none`.  Text written to `cout` and the monitors are not modelled.  An
exception is an `Except.error`.  The two loops of `evaluate` are recursions on a
bound that is large enough never to be exhausted.
-/

namespace CasADi

/-- A `double`: an exact rational or an IEEE special value. -/
inductive Dbl where
  | fin (q : ℚ)
  | pinf
  | ninf
  | nan
  deriving DecidableEq

namespace Dbl

/-- IEEE negation. -/
def neg : Dbl → Dbl
  | fin a => fin (-a)
  | pinf => ninf
  | ninf => pinf
  | nan => nan

/-- IEEE addition (exact on finite values). -/
def add : Dbl → Dbl → Dbl
  | fin a, fin b => fin (a + b)
  | fin _, pinf => pinf
  | fin _, ninf => ninf
  | pinf, fin _ => pinf
  | pinf, pinf => pinf
  | ninf, fin _ => ninf
  | ninf, ninf => ninf
  | _, _ => nan

/-- An infinity with the sign of `s * t`, where `t` is the sign of the infinite
operand (`true` for `+inf`); `NaN` when `s = 0`. -/
def infTimes (t : Bool) (s : ℚ) : Dbl :=
  if s = 0 then nan else if decide (0 < s) = t then pinf else ninf

/-- IEEE multiplication (exact on finite values; `0 * inf = NaN`). -/
def mul : Dbl → Dbl → Dbl
  | fin a, fin b => fin (a * b)
  | fin a, pinf => infTimes true a
  | fin a, ninf => infTimes false a
  | pinf, fin b => infTimes true b
  | ninf, fin b => infTimes false b
  | pinf, pinf => pinf
  | ninf, ninf => pinf
  | pinf, ninf => ninf
  | ninf, pinf => ninf
  | _, _ => nan

/-- IEEE division (exact on finite values with a non-zero divisor; a non-zero
finite value over zero is an infinity, `0 / 0` and `inf / inf` are `NaN`). -/
def div : Dbl → Dbl → Dbl
  | fin a, fin b => if b = 0 then infTimes true a else fin (a / b)
  | fin _, pinf => fin 0
  | fin _, ninf => fin 0
  | pinf, fin b => if 0 ≤ b then pinf else ninf
  | ninf, fin b => if 0 ≤ b then ninf else pinf
  | _, _ => nan

/-- Absolute value (`fabs`). -/
def fabs : Dbl → Dbl
  | fin a => fin |a|
  | pinf => pinf
  | ninf => pinf
  | nan => nan

/-- IEEE `<=`, false as soon as one side is `NaN`. -/
def le : Dbl → Dbl → Bool
  | fin a, fin b => decide (a ≤ b)
  | fin _, pinf => true
  | ninf, fin _ => true
  | ninf, ninf => true
  | ninf, pinf => true
  | pinf, pinf => true
  | _, _ => false

/-- IEEE `<`, false as soon as one side is `NaN`. -/
def lt : Dbl → Dbl → Bool
  | fin a, fin b => decide (a < b)
  | fin _, pinf => true
  | ninf, fin _ => true
  | ninf, pinf => true
  | _, _ => false

/-- Conversion of a `double` to `bool` in a C++ condition: true unless zero. -/
def toBool : Dbl → Bool
  | fin a => decide (a ≠ 0)
  | _ => true

/-- The value is an ordinary (finite) number. -/
def isFinite : Dbl → Bool
  | fin _ => true
  | _ => false

instance : Zero Dbl := ⟨fin 0⟩
instance : One Dbl := ⟨fin 1⟩
instance : Neg Dbl := ⟨neg⟩
instance : Add Dbl := ⟨add⟩
instance : Sub Dbl := ⟨fun a b => add a (neg b)⟩
instance : Mul Dbl := ⟨mul⟩
instance : Div Dbl := ⟨div⟩
instance : LE Dbl := ⟨fun a b => le a b = true⟩
instance : LT Dbl := ⟨fun a b => lt a b = true⟩
instance (a b : Dbl) : Decidable (a ≤ b) := inferInstanceAs (Decidable (le a b = true))
instance (a b : Dbl) : Decidable (a < b) := inferInstanceAs (Decidable (lt a b = true))
instance : Inhabited Dbl := ⟨fin 0⟩

end Dbl

/-- A finite `double` from a rational. -/
instance : Coe ℚ Dbl := ⟨Dbl.fin⟩

/-- A column vector of `n` doubles (a dense `DMatrix` of shape `n × 1`). -/
abbrev Vec (n : ℕ) := Fin n → Dbl

/-- A dense `m × n` `DMatrix`. -/
abbrev Mat (m n : ℕ) := Fin m → Fin n → Dbl

/-- Sum of the entries of a vector, in index order. -/
def vsum {n : ℕ} (v : Vec n) : Dbl := (List.ofFn v).foldl (· + ·) 0

/-- Embedding of a rational vector as a vector of finite doubles. -/
def toVec {n : ℕ} (w : Fin n → ℚ) : Vec n := fun i => Dbl.fin (w i)

/-- Embedding of a rational matrix as a matrix of finite doubles. -/
def toMat {m n : ℕ} (A : Fin m → Fin n → ℚ) : Mat m n := fun i j => Dbl.fin (A i j)

/-! ## Matrix helpers of `casadi/matrix/matrix_tools.hpp` -/

/-- Modelled from the spec: `inner_prod` of casadi/matrix/matrix_tools.hpp (not
under src/), the dot product `uᵀ v`. -/
def inner_prod {n : ℕ} (u v : Vec n) : Dbl := vsum (fun i => u i * v i)

/-- Modelled from the spec: `mul` of casadi/matrix/matrix_tools.hpp (not under
src/) for a matrix and a column vector, the product `A v`. -/
def mul {m n : ℕ} (A : Mat m n) (v : Vec n) : Vec m := fun i => vsum (fun j => A i j * v j)

/-- Modelled from the spec: `trans` of casadi/matrix/matrix_tools.hpp (not under
src/), the transpose. -/
def trans {m n : ℕ} (A : Mat m n) : Mat n m := fun j i => A i j

/-- Modelled from the spec: `outer_prod` of casadi/matrix/matrix_tools.hpp (not
under src/), the matrix `u vᵀ`. -/
def outer_prod {m n : ℕ} (u : Vec m) (v : Vec n) : Mat m n := fun i j => u i * v j

/-- Modelled from the spec: `fabs` of a `DMatrix` (casadi/matrix, not under
src/), the entrywise absolute value. -/
def fabs {n : ℕ} (v : Vec n) : Vec n := fun i => Dbl.fabs (v i)

/-- Modelled from the spec: `sumRows` of casadi/matrix/matrix_tools.hpp (not
under src/) on a column vector, the sum of its entries. -/
def sumRows {n : ℕ} (v : Vec n) : Dbl := vsum v

/-- Modelled from the spec: `norm_2` of casadi/matrix/matrix_tools.hpp (not
under src/), the Euclidean norm; the square root of the C library is a
parameter. -/
def norm_2 {n : ℕ} (sqrt : Dbl → Dbl) (v : Vec n) : Dbl := sqrt (inner_prod v v)

/-- Modelled from the spec: `DMatrix::eye` (casadi/matrix, not under src/), the
identity matrix. -/
def eye (n : ℕ) : Mat n n := fun i j => if i = j then 1 else 0

/-- Entrywise sum of two vectors. -/
def vadd {n : ℕ} (u v : Vec n) : Vec n := fun i => u i + v i

/-- Entrywise difference of two vectors. -/
def vsub {n : ℕ} (u v : Vec n) : Vec n := fun i => u i - v i

/-- Entrywise negation of a vector. -/
def vneg {n : ℕ} (u : Vec n) : Vec n := fun i => - u i

/-- Product of a scalar and a vector (scalar broadcast of `DMatrix`). -/
def smul {n : ℕ} (c : Dbl) (v : Vec n) : Vec n := fun i => c * v i

/-- Product of a vector and a scalar (scalar broadcast of `DMatrix`). -/
def vscale {n : ℕ} (v : Vec n) (c : Dbl) : Vec n := fun i => v i * c

/-- Entrywise sum of two matrices. -/
def madd {m n : ℕ} (A B : Mat m n) : Mat m n := fun i j => A i j + B i j

/-- Entrywise difference of two matrices. -/
def msub {m n : ℕ} (A B : Mat m n) : Mat m n := fun i j => A i j - B i j

/-- Entrywise division of a matrix by a scalar (scalar broadcast of `DMatrix`). -/
def mdiv {m n : ℕ} (A : Mat m n) (c : Dbl) : Mat m n := fun i j => A i j / c

/-! ## The solver: options, problem binding, QP interface -/

/-- The options read by `SQPInternal::init` (option values are finite numbers). -/
structure Options where
  maxiter : Int
  maxiter_ls : Int
  toldx : ℚ
  tolgl : ℚ
  sigma : ℚ
  rho : ℚ
  mu_safety : ℚ
  eta : ℚ
  tau : ℚ
  hessian_approximation : String

/-- The defaults registered by the constructor of `SQPInternal`. -/
def defaultOptions : Options where
  maxiter := 100
  maxiter_ls := 100
  toldx := 1e-12
  tolgl := 1e-12
  sigma := 1
  rho := 0.5
  mu_safety := 1.1
  eta := 0.0001
  tau := 0.2
  hessian_approximation := "BFGS"

/-- The constraint function `G_` and its Jacobian `J_`; the Jacobian is used
exactly where `G_` is present. -/
structure Constraints (n m : ℕ) where
  G : Vec n → Vec m
  J : Vec n → Mat m n

/-- The Hessian callback `H_`: its number of inputs (the static parameter not
counted) and its output for the inputs it was given.  The multipliers and the
factor `sigma` are passed only when the callback has more than one input. -/
structure HessFun (n m : ℕ) where
  numInputs : Int
  eval : Vec n → Option (Vec m × Dbl) → Mat n n

/-- The inputs of the QP solver, which persist between two calls. -/
structure QPInput (n m : ℕ) where
  H : Mat n n
  G : Vec n
  A : Mat m n
  LBA : Vec m
  UBA : Vec m
  LBX : Vec n
  UBX : Vec n

/-- The outputs of the QP solver. -/
structure QPOutput (n m : ℕ) where
  PRIMAL : Vec n
  DUAL_A : Vec m
  DUAL_X : Vec n

/-- What the observer `callback_` is given in one iteration. -/
structure CallbackInput (n : ℕ) where
  X_OPT : Vec n
  COST : Dbl
  iter : Int
  lsiter : Int
  normdx : Dbl
  normgradL : Dbl
  eq_viol : Dbl

/-- The solver object after construction: the callbacks `F_`, `G_`, `J_`,
`H_`, the observer, the QP solver and the NLP inputs.  `F` is the output of
`F_` and `gradF` its adjoint sensitivity for the seed `1`.  The QP solver is a
black box that may fail; `checkInitialBounds` is the method of the base class
(true when it returns normally); `sqrt` is the square root of the C library. -/
structure NLPSolver (n m : ℕ) where
  F : Vec n → Dbl
  gradF : Vec n → Vec n
  GJ : Option (Constraints n m)
  H : Option (HessFun n m)
  callback : Option (CallbackInput n → Dbl)
  qp_solver : QPInput n m → Option (QPOutput n m)
  qp_input0 : QPInput n m
  checkInitialBounds : Bool
  sqrt : Dbl → Dbl
  X_INIT : Vec n
  LBX : Vec n
  UBX : Vec n
  LBG : Vec m
  UBG : Vec m

/-- The ways `evaluate` and `init` can fail.  `outOfFuel` is the exhaustion of
the recursion bound of the model, which the bounds used by `lineSearch` and
`evaluate` never reach. -/
inductive SQPError where
  | assertionFailed
  | initialBounds
  | missingHessian
  | nullFunction
  | qpFailure
  | lineSearchFailed
  | outOfFuel
  deriving DecidableEq, Repr

/-- The `break` by which the main loop was left. -/
inductive StopReason where
  | userStop
  | smallDx
  | smallGradL
  | maxIter
  deriving DecidableEq, Repr

/-- The variables of `evaluate` that live across iterations of the main loop. -/
structure State (n m : ℕ) where
  x : Vec n
  fk : Dbl
  merit_mu : Dbl
  lambda_k : Vec m
  lambda_x_k : Vec n
  Bk : Mat n n
  k : Int
  qp_input : QPInput n m

/-! ## Hessian engine -/

/-- One evaluation of the Hessian callback (`H_.setInput ... H_.evaluate()`):
the multipliers and `sigma = 1` are passed when `n_hess_in > 1`. -/
def evalH {n m : ℕ} (H : HessFun n m) (x : Vec n) (lambda_k : Vec m) : Mat n n :=
  let n_hess_in := H.numInputs
  if n_hess_in > 1 then H.eval x (some (lambda_k, 1)) else H.eval x none

/-- The product `Bdx = mul(Bk,dx)` of the BFGS update. -/
def Bdx {n : ℕ} (Bk : Mat n n) (dx : Vec n) : Vec n := mul Bk dx

/-- The curvature `dxBdx = mul(trans(dx),Bdx)` of the BFGS update. -/
def dxBdx {n : ℕ} (Bk : Mat n n) (dx : Vec n) : Dbl := inner_prod dx (Bdx Bk dx)

/-- The product `ydx = inner_prod(dx,yk)` of the BFGS update. -/
def ydx {n : ℕ} (dx yk : Vec n) : Dbl := inner_prod dx yk

/-- The damping factor `thetak` of the BFGS branch. -/
def thetak {n : ℕ} (Bk : Mat n n) (dx yk : Vec n) : Dbl :=
  if ydx dx yk ≥ Dbl.fin 0.2 * dxBdx Bk dx then
    1
  else
    1 - Dbl.fin 0.8 * dxBdx Bk dx / (dxBdx Bk dx - ydx dx yk)

/-- The damped vector `rk = thetak*yk + (1-thetak)*Bdx`. -/
def rk {n : ℕ} (Bk : Mat n n) (dx yk : Vec n) : Vec n :=
  vadd (smul (thetak Bk dx yk) yk) (smul (1 - thetak Bk dx yk) (Bdx Bk dx))

/-- The BFGS branch:
`Bk = Bk - outer_prod(Bdx,Bdx)/dxBdx + outer_prod(rk,rk)/inner_prod(rk,dx)`. -/
def bfgsUpdate {n : ℕ} (Bk : Mat n n) (dx yk : Vec n) : Mat n n :=
  madd (msub Bk (mdiv (outer_prod (Bdx Bk dx) (Bdx Bk dx)) (dxBdx Bk dx)))
    (mdiv (outer_prod (rk Bk dx yk) (rk Bk dx yk)) (inner_prod (rk Bk dx yk) dx))

/-! ## Merit function and line search -/

/-- The 1-norm of the constraint values, `G_.isNull() ? 0 : sumRows(fabs(gk))`. -/
def feasviol {n m : ℕ} (S : NLPSolver n m) (gk : Vec m) : Dbl :=
  match S.GJ with
  | none => 0
  | some _ => sumRows (fabs gk)

/-- The lower bound on `mu` of the quadratic model of `T1`. -/
def mu_lb {n m : ℕ} (S : NLPSolver n m) (o : Options) (gk : Vec m) (gfk p : Vec n)
    (Bk : Mat n n) : Dbl :=
  (inner_prod gfk p + Dbl.fin o.sigma / Dbl.fin 2.0 * inner_prod p (mul Bk p))
    / (1 - Dbl.fin o.rho) / feasviol S gk

/-- The step `if(mu < mu_lb) mu = mu_lb*mu_safety_`. -/
def muUpdate (o : Options) (mu mu_lb : Dbl) : Dbl :=
  if mu < mu_lb then mu_lb * Dbl.fin o.mu_safety else mu

/-- The `mu` used by the merit function of one iteration. -/
def meritMu {n m : ℕ} (S : NLPSolver n m) (o : Options) (merit_mu : Dbl) (gk : Vec m)
    (gfk p : Vec n) (Bk : Mat n n) : Dbl :=
  muUpdate o merit_mu (mu_lb S o gk gfk p Bk)

/-- The merit function at `x`: `T1 = fk + mu*feasviol`. -/
def T1 {n m : ℕ} (S : NLPSolver n m) (fk mu : Dbl) (gk : Vec m) : Dbl :=
  fk + mu * feasviol S gk

/-- The directional derivative of the merit function:
`DT1 = inner_prod(gfk,p) - (G_.isNull() ? 0 : mu*sumRows(fabs(gk)))`. -/
def DT1 {n m : ℕ} (S : NLPSolver n m) (mu : Dbl) (gk : Vec m) (gfk p : Vec n) : Dbl :=
  inner_prod gfk p - (match S.GJ with
    | none => 0
    | some _ => mu * sumRows (fabs gk))

/-- The merit function at the prospective point `x_new = x + alpha*p`:
`T1_new = fk_new + (G_.isNull() ? 0 : mu*feasviol_new)`. -/
def T1_new {n m : ℕ} (S : NLPSolver n m) (x p : Vec n) (mu alpha : Dbl) : Dbl :=
  let x_new := vadd x (smul alpha p)
  let fk_new := S.F x_new
  fk_new + (match S.GJ with
    | none => 0
    | some c => mu * sumRows (fabs (c.G x_new)))

/-- The Armijo test `T1_new <= T1 + eta_*alpha*DT1` of the line search. -/
def armijo {n m : ℕ} (S : NLPSolver n m) (o : Options) (x p : Vec n) (mu T1 DT1 alpha : Dbl) :
    Bool :=
  decide (T1_new S x p mu alpha ≤ T1 + Dbl.fin o.eta * alpha * DT1)

/-- The backtracking loop, entered with the current `alpha` and `lsiter`. -/
def lineSearchLoop {n m : ℕ} (S : NLPSolver n m) (o : Options) (x p : Vec n) (mu T1 DT1 : Dbl) :
    ℕ → Dbl → Int → Except SQPError (Dbl × Int)
  | 0, _, _ => .error .outOfFuel
  | fuel + 1, alpha, lsiter =>
    if armijo S o x p mu T1 DT1 alpha then
      .ok (alpha, lsiter)
    else
      let alpha := alpha * Dbl.fin o.tau
      let lsiter := lsiter + 1
      if lsiter ≥ o.maxiter_ls then
        .error .lineSearchFailed
      else
        lineSearchLoop S o x p mu T1 DT1 fuel alpha lsiter

/-- The line search: the backtracking loop from `alpha = 1`, `lsiter = 0`.  It
returns the accepted `alpha` and the number of backtracks. -/
def lineSearch {n m : ℕ} (S : NLPSolver n m) (o : Options) (x p : Vec n) (mu T1 DT1 : Dbl) :
    Except SQPError (Dbl × Int) :=
  lineSearchLoop S o x p mu T1 DT1 (o.maxiter_ls.toNat + 1) 1 0

/-- The blend `tk*lambda_hat + (1-tk)*lambda_k` of the multipliers. -/
def blend {n : ℕ} (tk : Dbl) (lambda_hat lambda_k : Vec n) : Vec n :=
  vadd (smul tk lambda_hat) (smul (1 - tk) lambda_k)

/-! ## The main loop of `SQPInternal::evaluate` -/

/-- What one pass through the body of the main loop leads to: the next pass, or
a `break`. -/
inductive Outcome (n m : ℕ) where
  | next (s : State n m)
  | stop (s : State n m) (r : StopReason)

/-- The outputs `NLP_COST` and `NLP_X_OPT` of the solver. -/
structure Output (n : ℕ) where
  COST : Dbl
  X_OPT : Vec n

/-- The constraint values `gk` at `x` (the empty matrix, here zero, when `G_` is
null). -/
def evalG {n m : ℕ} (S : NLPSolver n m) (x : Vec n) : Vec m :=
  match S.GJ with
  | none => fun _ => 0
  | some c => c.G x

/-- The constraint Jacobian `Jgk` at `x` (`DMatrix::zeros(0,n)` when `G_` is
null). -/
def evalJ {n m : ℕ} (S : NLPSolver n m) (x : Vec n) : Mat m n :=
  match S.GJ with
  | none => fun _ _ => 0
  | some c => c.J x

/-- The term `G_.isNull() ? 0 : mul(trans(Jgk),lambda)` of a Lagrangian
gradient. -/
def JtLambda {n m : ℕ} (S : NLPSolver n m) (Jgk : Mat m n) (lam : Vec m) : Vec n :=
  match S.GJ with
  | none => fun _ => 0
  | some _ => mul (trans Jgk) lam

/-- The data passed to the QP solver in one iteration (`qp_solver_.setInput`). -/
def qpInput {n m : ℕ} (S : NLPSolver n m) (s : State n m) (gk : Vec m) (Jgk : Mat m n)
    (gfk : Vec n) : QPInput n m :=
  let q := { s.qp_input with H := s.Bk, G := gfk, A := Jgk }
  let q := match S.GJ with
    | none => q
    | some _ => { q with LBA := vadd (vneg gk) S.LBG, UBA := vadd (vneg gk) S.UBG }
  { q with LBX := vadd (vneg s.x) S.LBX, UBX := vadd (vneg s.x) S.UBX }

/-- The body of the main loop. -/
def iteration {n m : ℕ} (S : NLPSolver n m) (o : Options) (s : State n m) :
    Except SQPError (Outcome n m) :=
  let x := s.x
  -- evaluate the constraint function, its Jacobian, the objective and its gradient
  let gk := evalG S x
  let Jgk := evalJ S x
  let fk := S.F x
  let gfk := S.gradF x
  -- pass data to the QP solver and solve the QP subproblem
  let qp_input := qpInput S s gk Jgk gfk
  match S.qp_solver qp_input with
  | none => .error .qpFailure
  | some out =>
    let p := out.PRIMAL
    let lambda_hat := out.DUAL_A
    let lambda_x_hat := out.DUAL_X
    -- the gradient of the Lagrangian
    let gradL := vsub (vsub gfk (JtLambda S Jgk lambda_hat)) lambda_x_hat
    -- line search along p
    let mu := meritMu S o s.merit_mu gk gfk p s.Bk
    let T1 := T1 S fk mu gk
    let DT1 := DT1 S mu gk gfk p
    match lineSearch S o x p mu T1 DT1 with
    | .error e => .error e
    | .ok (alpha, lsiter) =>
      let tk := alpha
      -- the new step
      let dx := vscale p tk
      let x := vadd x dx
      let lambda_k := blend tk lambda_hat s.lambda_k
      let lambda_x_k := blend tk lambda_x_hat s.lambda_x_k
      let k := s.k + 1
      -- iteration information
      let normdx := norm_2 S.sqrt dx
      let normgradL := norm_2 S.sqrt gradL
      let eq_viol := feasviol S gk
      let s1 : State n m :=
        { x := x, fk := fk, merit_mu := s.merit_mu, lambda_k := lambda_k,
          lambda_x_k := lambda_x_k, Bk := s.Bk, k := k, qp_input := qp_input }
      let stopRequested := match S.callback with
        | none => false
        | some cb =>
          (cb { X_OPT := x, COST := fk, iter := k, lsiter := lsiter, normdx := normdx,
                normgradL := normgradL, eq_viol := eq_viol }).toBool
      if stopRequested then
        .ok (.stop s1 .userStop)
      else if normdx < Dbl.fin o.toldx then
        .ok (.stop s1 .smallDx)
      else if normgradL < Dbl.fin o.tolgl then
        .ok (.stop s1 .smallGradL)
      else
        -- evaluate the constraints, the objective and its gradient at the new x
        let Jgk := evalJ S x
        let fk := S.F x
        let gfk := S.gradF x
        let s2 : State n m := { s1 with fk := fk }
        if k ≥ o.maxiter then
          .ok (.stop s2 .maxIter)
        else
          let BkExact : Except SQPError (Mat n n) :=
            if o.hessian_approximation = "exact" then
              match S.H with
              | none => .error .nullFunction
              | some H => .ok (evalH H x lambda_k)
            else .ok s.Bk
          match BkExact with
          | .error e => .error e
          | .ok Bk =>
            let Bk :=
              if o.hessian_approximation = "BFGS" then
                -- the damped BFGS update
                let gradL_new := vsub (vsub gfk (JtLambda S Jgk lambda_k)) lambda_x_k
                let yk := vsub gradL_new gradL
                bfgsUpdate Bk dx yk
              else Bk
            .ok (.next { s2 with Bk := Bk })

/-- The main loop `while(true)`, with a bound on the number of passes. -/
def mainLoop {n m : ℕ} (S : NLPSolver n m) (o : Options) :
    ℕ → State n m → Except SQPError (State n m × StopReason)
  | 0, _ => .error .outOfFuel
  | fuel + 1, s =>
    match iteration S o s with
    | .error e => .error e
    | .ok (.stop s1 r) => .ok (s1, r)
    | .ok (.next s1) => mainLoop S o fuel s1

/-- The initial guess for the Hessian.  In the branch for the exact Hessian the
statement `DMatrix Bk = H_.output();` declares a variable of the block, which
ends with the block; the `Bk` of the function keeps the identity. -/
def initialHessian {n m : ℕ} (S : NLPSolver n m) (o : Options) (x : Vec n) (lambda_k : Vec m) :
    Except SQPError (Mat n n) :=
  let Bk := eye n
  if o.hessian_approximation = "exact" then
    match S.H with
    | none => .error .nullFunction
    | some H =>
      let _Bk : Mat n n := evalH H x lambda_k
      .ok Bk
  else
    .ok Bk

/-- The state on entry to the main loop. -/
def initState {n m : ℕ} (S : NLPSolver n m) (o : Options) : Except SQPError (State n m) :=
  let x := S.X_INIT
  let merit_mu : Dbl := 0
  let lambda_k : Vec m := fun _ => 0
  let lambda_x_k : Vec n := fun _ => 0
  match initialHessian S o x lambda_k with
  | .error e => .error e
  | .ok Bk =>
    -- no bounds on the control
    let qp_input := { S.qp_input0 with LBX := fun _ => Dbl.ninf, UBX := fun _ => Dbl.pinf }
    .ok { x := x, fk := 0, merit_mu := merit_mu, lambda_k := lambda_k,
          lambda_x_k := lambda_x_k, Bk := Bk, k := 0, qp_input := qp_input }

/-- The run of `evaluate` up to the end of the main loop: the final state and
the `break` taken. -/
def run {n m : ℕ} (S : NLPSolver n m) (o : Options) (nfdir nadir : Int) :
    Except SQPError (State n m × StopReason) :=
  if ¬ (nfdir = 0 ∧ nadir = 0) then
    .error .assertionFailed
  else if ¬ S.checkInitialBounds then
    .error .initialBounds
  else
    match initState S o with
    | .error e => .error e
    | .ok s0 => mainLoop S o (o.maxiter.toNat + 1) s0

/-- The method `SQPInternal::evaluate`: the outputs it sets. -/
def evaluate {n m : ℕ} (S : NLPSolver n m) (o : Options) (nfdir nadir : Int) :
    Except SQPError (Output n) :=
  match run S o nfdir nadir with
  | .error e => .error e
  | .ok (s, _) => .ok { COST := s.fk, X_OPT := s.x }

/-- The method `SQPInternal::init`, given that the initialisation of the base
class and the creation of the QP solver succeed. -/
def init {n m : ℕ} (S : NLPSolver n m) (o : Options) : Except SQPError Unit :=
  if o.hessian_approximation = "exact" ∧ S.H.isNone = true then
    .error .missingHessian
  else
    .ok ()

/-! ## Notions used to state the properties -/

/-- The matrix is finite, symmetric and positive-definite. -/
def IsSymPosDef {n : ℕ} (B : Mat n n) : Prop :=
  ∃ A : Fin n → Fin n → ℚ, B = toMat A ∧ (∀ i j, A i j = A j i) ∧
    ∀ v : Fin n → ℚ, v ≠ 0 → 0 < ∑ i, v i * ∑ j, A i j * v j

/-- The damping factor as the specification words it: `1` when
`ydx ≥ 0.2 dxBdx`, and `0.8 dxBdx / (dxBdx - ydx)` otherwise. -/
def thetak_spec {n : ℕ} (Bk : Mat n n) (dx yk : Vec n) : Dbl :=
  if ydx dx yk ≥ Dbl.fin 0.2 * dxBdx Bk dx then
    1
  else
    Dbl.fin 0.8 * dxBdx Bk dx / (dxBdx Bk dx - ydx dx yk)

/-- The merit function as the specification words it:
`T1(x) = f(x) + mu * sum |g(x)|`, the constraint term being `0` when `G` is
absent. -/
def T1_spec {n m : ℕ} (S : NLPSolver n m) (mu : Dbl) (x : Vec n) : Dbl :=
  S.F x + (match S.GJ with
    | none => 0
    | some c => mu * sumRows (fabs (c.G x)))

/-- The directional derivative as the specification words it:
`DT1 = grad_f(x)ᵀ p - mu * sum |g(x)|`, the constraint term being `0` when `G`
is absent. -/
def DT1_spec {n m : ℕ} (S : NLPSolver n m) (mu : Dbl) (x p : Vec n) : Dbl :=
  inner_prod (S.gradF x) p - (match S.GJ with
    | none => 0
    | some c => mu * sumRows (fabs (c.G x)))

/-- The `1 × 1` matrix with the given entry. -/
def mat1 (a : ℚ) : Mat 1 1 := toMat (fun _ _ => a)

/-- The vector of length one with the given entry. -/
def vec1 (a : ℚ) : Vec 1 := toVec (fun _ => a)

/-- A square root, exact on the squares of rationals. -/
def exactSqrt : Dbl → Dbl
  | .fin q => if q < 0 then .nan else .fin (Rat.sqrt q)
  | .pinf => .pinf
  | _ => .nan

/-- QP inputs that are all zero. -/
def qpInputZero (n m : ℕ) : QPInput n m where
  H := fun _ _ => 0
  G := fun _ => 0
  A := fun _ _ => 0
  LBA := fun _ => 0
  UBA := fun _ => 0
  LBX := fun _ => 0
  UBX := fun _ => 0

/-- A QP solver for one variable, no constraints and inactive bounds: the
minimiser `p = -G/H` of `½ H p² + G p`, with zero multipliers. -/
def qpSolver1 (q : QPInput 1 0) : Option (QPOutput 1 0) :=
  some { PRIMAL := fun _ => - (q.G 0) / (q.H 0 0), DUAL_A := fun _ => 0, DUAL_X := fun _ => 0 }

/-- The solver for an unconstrained problem in one variable with objective `f`,
derivative `df`, start point `x0` and no bounds. -/
def solver1 (f df : Dbl → Dbl) (x0 : ℚ) : NLPSolver 1 0 where
  F := fun x => f (x 0)
  gradF := fun x _ => df (x 0)
  GJ := none
  H := none
  callback := none
  qp_solver := qpSolver1
  qp_input0 := qpInputZero 1 0
  checkInitialBounds := true
  sqrt := exactSqrt
  X_INIT := vec1 x0
  LBX := fun _ => Dbl.ninf
  UBX := fun _ => Dbl.pinf
  LBG := fun _ => 0
  UBG := fun _ => 0

/-- The problem `min x²` from `x0 = 1`. -/
def squareSolver : NLPSolver 1 0 :=
  solver1 (fun t => t * t) (fun t => Dbl.fin 2 * t) 1

/-- The problem `min -x²/2` from `x0 = -1`. -/
def concaveSolver : NLPSolver 1 0 :=
  solver1 (fun t => - (t * t) / Dbl.fin 2) (fun t => - t) (-1)

/-- A Hessian callback with the inputs `(x, lambda, sigma)` that returns `(2)`,
the Hessian of `x²`. -/
def hessTwo : HessFun 1 0 where
  numInputs := 3
  eval := fun _ _ => mat1 2

/-- The problem `min x²` from `x0 = 1` with its exact Hessian supplied. -/
def exactSolver : NLPSolver 1 0 :=
  { squareSolver with H := some hessTwo }

/-- The default options with `hessian_approximation = exact`. -/
def exactOptions : Options :=
  { defaultOptions with hessian_approximation := "exact" }

/-- A QP solver for one variable and one equality constraint `A p = LBA`: the
feasible point `p = LBA/A`, with the multiplier of the stationarity condition. -/
def qpSolverEq (q : QPInput 1 1) : Option (QPOutput 1 1) :=
  some { PRIMAL := fun _ => q.LBA 0 / q.A 0 0,
         DUAL_A := fun _ => (q.H 0 0 * (q.LBA 0 / q.A 0 0) + q.G 0) / q.A 0 0,
         DUAL_X := fun _ => 0 }

/-- The problem `min x` subject to `x = 1`, from `x0 = 0`, where the constraint
function `g(x) = x` vanishes. -/
def eqSolver : NLPSolver 1 1 where
  F := fun x => x 0
  gradF := fun _ => vec1 1
  GJ := some { G := fun x => x, J := fun _ => mat1 1 }
  H := none
  callback := none
  qp_solver := qpSolverEq
  qp_input0 := qpInputZero 1 1
  checkInitialBounds := true
  sqrt := exactSqrt
  X_INIT := vec1 0
  LBX := fun _ => Dbl.ninf
  UBX := fun _ => Dbl.pinf
  LBG := vec1 1
  UBG := vec1 1

/-- The state of `eqSolver` on entry to the main loop. -/
def eqState0 : State 1 1 where
  x := vec1 0
  fk := 0
  merit_mu := 0
  lambda_k := fun _ => 0
  lambda_x_k := fun _ => 0
  Bk := eye 1
  k := 0
  qp_input := { qpInputZero 1 1 with LBX := fun _ => Dbl.ninf, UBX := fun _ => Dbl.pinf }

/-- The damping factor of the code on rational data, where `dxBdx ≠ ydx` in the
damped branch. -/
def thetaQ {n : ℕ} (A : Fin n → Fin n → ℚ) (d y : Fin n → ℚ) : ℚ :=
  if 0.2 * (∑ i, d i * ∑ j, A i j * d j) ≤ ∑ i, d i * y i then 1
  else 1 - 0.8 * (∑ i, d i * ∑ j, A i j * d j)
    / ((∑ i, d i * ∑ j, A i j * d j) - ∑ i, d i * y i)

/-- The damped vector of the code on rational data. -/
def rkQ {n : ℕ} (A : Fin n → Fin n → ℚ) (d y : Fin n → ℚ) : Fin n → ℚ :=
  fun i => thetaQ A d y * y i + (1 - thetaQ A d y) * ∑ j, A i j * d j

/-- The state of `concaveSolver` on entry to the main loop. -/
def concaveState0 : State 1 0 where
  x := vec1 (-1)
  fk := 0
  merit_mu := 0
  lambda_k := fun _ => 0
  lambda_x_k := fun _ => 0
  Bk := eye 1
  k := 0
  qp_input := { qpInputZero 1 0 with LBX := fun _ => Dbl.ninf, UBX := fun _ => Dbl.pinf }

/-! ## Parts of the body of the main loop -/

/-- The gradient of the Lagrangian `gradL` of one pass, at the `x` on entry. -/
def gradLOf {n m : ℕ} (S : NLPSolver n m) (s : State n m) (out : QPOutput n m) : Vec n :=
  vsub (vsub (S.gradF s.x) (JtLambda S (evalJ S s.x) out.DUAL_A)) out.DUAL_X

/-- The `mu` of the merit function of one pass. -/
def muOf {n m : ℕ} (S : NLPSolver n m) (o : Options) (s : State n m) (out : QPOutput n m) :
    Dbl :=
  meritMu S o s.merit_mu (evalG S s.x) (S.gradF s.x) out.PRIMAL s.Bk

/-- The line search of one pass, with the `mu`, `T1` and `DT1` of that pass. -/
def lineSearchOf {n m : ℕ} (S : NLPSolver n m) (o : Options) (s : State n m)
    (out : QPOutput n m) : Except SQPError (Dbl × Int) :=
  lineSearch S o s.x out.PRIMAL (muOf S o s out)
    (T1 S (S.F s.x) (muOf S o s out) (evalG S s.x))
    (DT1 S (muOf S o s out) (evalG S s.x) (S.gradF s.x) out.PRIMAL)

/-- The variables after the step `x = x + dx` and the blend of the multipliers:
`fk` and `Bk` are those of the entry to the pass. -/
def steppedState {n m : ℕ} (S : NLPSolver n m) (s : State n m) (out : QPOutput n m)
    (alpha : Dbl) : State n m :=
  { x := vadd s.x (vscale out.PRIMAL alpha), fk := S.F s.x, merit_mu := s.merit_mu,
    lambda_k := blend alpha out.DUAL_A s.lambda_k,
    lambda_x_k := blend alpha out.DUAL_X s.lambda_x_k, Bk := s.Bk, k := s.k + 1,
    qp_input := qpInput S s (evalG S s.x) (evalJ S s.x) (S.gradF s.x) }

/-- The step size `normdx` of one pass. -/
def normdxOf {n m : ℕ} (S : NLPSolver n m) (out : QPOutput n m) (alpha : Dbl) : Dbl :=
  norm_2 S.sqrt (vscale out.PRIMAL alpha)

/-- The size `normgradL` of the Lagrangian gradient of one pass. -/
def normgradLOf {n m : ℕ} (S : NLPSolver n m) (s : State n m) (out : QPOutput n m) : Dbl :=
  norm_2 S.sqrt (gradLOf S s out)

/-- What the observer is given in one pass. -/
def observerInput {n m : ℕ} (S : NLPSolver n m) (s : State n m) (out : QPOutput n m)
    (alpha : Dbl) (lsiter : Int) : CallbackInput n :=
  { X_OPT := vadd s.x (vscale out.PRIMAL alpha), COST := S.F s.x, iter := s.k + 1,
    lsiter := lsiter, normdx := normdxOf S out alpha, normgradL := normgradLOf S s out,
    eq_viol := feasviol S (evalG S s.x) }

/-- The observer is present and its reply is non-zero. -/
def stopRequested {n m : ℕ} (S : NLPSolver n m) (s : State n m) (out : QPOutput n m)
    (alpha : Dbl) (lsiter : Int) : Bool :=
  match S.callback with
  | none => false
  | some cb => (cb (observerInput S s out alpha lsiter)).toBool

/-- The variables after the evaluation of the objective at the new `x`. -/
def reevaluatedState {n m : ℕ} (S : NLPSolver n m) (s : State n m) (out : QPOutput n m)
    (alpha : Dbl) : State n m :=
  { steppedState S s out alpha with fk := S.F (vadd s.x (vscale out.PRIMAL alpha)) }

/-- The gradient difference `yk` of the BFGS branch of one pass. -/
def ykOf {n m : ℕ} (S : NLPSolver n m) (s : State n m) (out : QPOutput n m) (alpha : Dbl) :
    Vec n :=
  vsub (vsub (vsub (S.gradF (vadd s.x (vscale out.PRIMAL alpha)))
      (JtLambda S (evalJ S (vadd s.x (vscale out.PRIMAL alpha)))
        (blend alpha out.DUAL_A s.lambda_k)))
    (blend alpha out.DUAL_X s.lambda_x_k)) (gradLOf S s out)

/-- The Hessian approximation at the end of a pass that goes on. -/
def updatedHessian {n m : ℕ} (S : NLPSolver n m) (o : Options) (s : State n m)
    (out : QPOutput n m) (alpha : Dbl) : Except SQPError (Mat n n) :=
  let BkExact : Except SQPError (Mat n n) :=
    if o.hessian_approximation = "exact" then
      match S.H with
      | none => .error .nullFunction
      | some H => .ok (evalH H (vadd s.x (vscale out.PRIMAL alpha))
          (blend alpha out.DUAL_A s.lambda_k))
    else .ok s.Bk
  match BkExact with
  | .error e => .error e
  | .ok Bk =>
    .ok (if o.hessian_approximation = "BFGS" then
        bfgsUpdate Bk (vscale out.PRIMAL alpha) (ykOf S s out alpha)
      else Bk)

/-- The body of the main loop after the line search. -/
def afterLineSearch {n m : ℕ} (S : NLPSolver n m) (o : Options) (s : State n m)
    (out : QPOutput n m) (alpha : Dbl) (lsiter : Int) : Except SQPError (Outcome n m) :=
  if stopRequested S s out alpha lsiter then
    .ok (.stop (steppedState S s out alpha) .userStop)
  else if normdxOf S out alpha < Dbl.fin o.toldx then
    .ok (.stop (steppedState S s out alpha) .smallDx)
  else if normgradLOf S s out < Dbl.fin o.tolgl then
    .ok (.stop (steppedState S s out alpha) .smallGradL)
  else if s.k + 1 ≥ o.maxiter then
    .ok (.stop (reevaluatedState S s out alpha) .maxIter)
  else
    match updatedHessian S o s out alpha with
    | .error e => .error e
    | .ok Bk => .ok (.next { reevaluatedState S s out alpha with Bk := Bk })

/-- The states on entry to a pass of the main loop in a run of `evaluate`. -/
inductive Reachable {n m : ℕ} (S : NLPSolver n m) (o : Options) : State n m → Prop where
  | init (s0 : State n m) : initState S o = .ok s0 → Reachable S o s0
  | step (s s1 : State n m) : Reachable S o s → iteration S o s = .ok (.next s1) →
      Reachable S o s1

/-- The problem `min -x²/2` from `x0 = -1` with an observer that always asks to
stop. -/
def stopSolver : NLPSolver 1 0 :=
  { concaveSolver with callback := some (fun _ => 1) }

/-- The default options with the given `maxiter` and `toldx`. -/
def tunedOptions (maxiter : Int) (toldx : ℚ) : Options :=
  { defaultOptions with maxiter := maxiter, toldx := toldx }

/-- The QP output in the first pass on `min -x²/2` from `x0 = -1`. -/
def concaveOut : QPOutput 1 0 :=
  { PRIMAL := vec1 (-1), DUAL_A := fun _ => 0, DUAL_X := fun _ => 0 }

/-- The number of passes through the body of the main loop (the number of QP
solves) made by `mainLoop`. -/
def mainLoopPasses {n m : ℕ} (S : NLPSolver n m) (o : Options) : ℕ → State n m → ℕ
  | 0, _ => 0
  | fuel + 1, s =>
    match iteration S o s with
    | .ok (.next s1) => 1 + mainLoopPasses S o fuel s1
    | _ => 1

/-- The number of passes through the body of the main loop made by
`evaluate`. -/
def evaluatePasses {n m : ℕ} (S : NLPSolver n m) (o : Options) (nfdir nadir : Int) : ℕ :=
  if ¬ (nfdir = 0 ∧ nadir = 0) then
    0
  else if ¬ S.checkInitialBounds then
    0
  else
    match initState S o with
    | .error _ => 0
    | .ok s0 => mainLoopPasses S o (o.maxiter.toNat + 1) s0

/-- The problem `min x²` from its minimiser `x0 = 0`. -/
def optimumSolver : NLPSolver 1 0 :=
  solver1 (fun t => t * t) (fun t => Dbl.fin 2 * t) 0

/-- The problem `min x²` from its minimiser `x0 = 0`, with an observer that
always asks to stop. -/
def optimumStopSolver : NLPSolver 1 0 :=
  { optimumSolver with callback := some (fun _ => 1) }

/-- The state of `optimumSolver` on entry to the main loop. -/
def optimumState0 : State 1 0 where
  x := vec1 0
  fk := 0
  merit_mu := 0
  lambda_k := fun _ => 0
  lambda_x_k := fun _ => 0
  Bk := eye 1
  k := 0
  qp_input := { qpInputZero 1 0 with LBX := fun _ => Dbl.ninf, UBX := fun _ => Dbl.pinf }

/-- The QP output with the zero step in one variable. -/
def zeroOut : QPOutput 1 0 :=
  { PRIMAL := fun _ => 0, DUAL_A := fun _ => 0, DUAL_X := fun _ => 0 }

/-- The vector of length two with the given entries. -/
def vec2 (a b : ℚ) : Vec 2 := toVec ![a, b]

/-- The `2 × 2` matrix with the given rows `(a, b)` and `(c, d)`. -/
def mat2 (a b c d : ℚ) : Mat 2 2 := toMat ![![a, b], ![c, d]]

/-- A QP solver for two variables, no constraints and inactive bounds: the
solution `p` of `H p = -G` by Cramer's rule, the minimiser of `½ pᵀHp + Gᵀp` when
`H` is positive-definite, with zero multipliers. -/
def qpSolver2 (q : QPInput 2 0) : Option (QPOutput 2 0) :=
  let det := q.H 0 0 * q.H 1 1 - q.H 0 1 * q.H 1 0
  some { PRIMAL := ![(q.H 0 1 * q.G 1 - q.H 1 1 * q.G 0) / det,
                     (q.H 1 0 * q.G 0 - q.H 0 0 * q.G 1) / det],
         DUAL_A := fun _ => 0, DUAL_X := fun _ => 0 }

/-- The problem `min (x₁-1)² + (x₂-2)²` from `x0 = (0,0)`, without constraints
and bounds, for a given square root. -/
def scenarioOne (sqrt : Dbl → Dbl) : NLPSolver 2 0 where
  F := fun x => (x 0 - Dbl.fin 1) * (x 0 - Dbl.fin 1) + (x 1 - Dbl.fin 2) * (x 1 - Dbl.fin 2)
  gradF := fun x => ![Dbl.fin 2 * (x 0 - Dbl.fin 1), Dbl.fin 2 * (x 1 - Dbl.fin 2)]
  GJ := none
  H := none
  callback := none
  qp_solver := qpSolver2
  qp_input0 := qpInputZero 2 0
  checkInitialBounds := true
  sqrt := sqrt
  X_INIT := vec2 0 0
  LBX := fun _ => Dbl.ninf
  UBX := fun _ => Dbl.pinf
  LBG := fun _ => 0
  UBG := fun _ => 0

/-- The square root rounded down to a multiple of `10⁻¹²`. -/
def gridSqrt : Dbl → Dbl
  | .fin q => if q < 0 then .nan else .fin ((Nat.sqrt ⌊q * 10 ^ 24⌋₊ : ℚ) / 10 ^ 12)
  | .pinf => .pinf
  | _ => .nan

/-- The square root does not make a step or a gradient of squared length at
least `10⁻²⁴` look shorter than `10⁻¹²`, and it maps zero to zero. -/
def SqrtResolves (sqrt : Dbl → Dbl) : Prop :=
  sqrt (Dbl.fin 0) = Dbl.fin 0 ∧
    ∀ q : ℚ, 1e-24 ≤ q → ¬ (sqrt (Dbl.fin q) < Dbl.fin 1e-12)

/-- The QP output in two variables with the step `(p₁, p₂)` and zero
multipliers. -/
def stepOut2 (p1 p2 : ℚ) : QPOutput 2 0 :=
  { PRIMAL := vec2 p1 p2, DUAL_A := fun _ => 0, DUAL_X := fun _ => 0 }

/-- The state of `scenarioOne` on entry to the main loop. -/
def scenarioState0 : State 2 0 where
  x := vec2 0 0
  fk := 0
  merit_mu := 0
  lambda_k := fun _ => 0
  lambda_x_k := fun _ => 0
  Bk := eye 2
  k := 0
  qp_input := { qpInputZero 2 0 with LBX := fun _ => Dbl.ninf, UBX := fun _ => Dbl.pinf }

/-- The state of `scenarioOne` on entry to the second pass. -/
def scenarioState1 (sqrt : Dbl → Dbl) : State 2 0 :=
  { reevaluatedState (scenarioOne sqrt) scenarioState0 (stepOut2 2 4) (Dbl.fin (1 / 5)) with
    Bk := mat2 (6 / 5) (2 / 5) (2 / 5) (9 / 5) }

/-- The state of `scenarioOne` on entry to the third pass. -/
def scenarioState2 (sqrt : Dbl → Dbl) : State 2 0 :=
  { reevaluatedState (scenarioOne sqrt) (scenarioState1 sqrt) (stepOut2 (3 / 5) (6 / 5))
      (Dbl.fin 1) with
    Bk := mat2 (6 / 5) (2 / 5) (2 / 5) (9 / 5) }

/-! ## Arithmetic of finite doubles -/

namespace Dbl
@[simp] theorem zero_def : (0 : Dbl) = fin 0 := rfl
@[simp] theorem one_def : (1 : Dbl) = fin 1 := rfl
@[simp] theorem fin_add_fin (a b : ℚ) : fin a + fin b = fin (a + b) := rfl
@[simp] theorem fin_mul_fin (a b : ℚ) : fin a * fin b = fin (a * b) := rfl
@[simp] theorem neg_fin (a : ℚ) : - fin a = fin (-a) := rfl
@[simp] theorem fin_sub_fin (a b : ℚ) : fin a - fin b = fin (a - b) := by
  show add (fin a) (neg (fin b)) = fin (a - b)
  simp [add, neg, sub_eq_add_neg]
@[simp] theorem fin_div_fin (a b : ℚ) :
    fin a / fin b = if b = 0 then infTimes true a else fin (a / b) := rfl
@[simp] theorem fin_le_fin (a b : ℚ) : fin a ≤ fin b ↔ a ≤ b := by
  show le (fin a) (fin b) = true ↔ a ≤ b
  simp [le]
@[simp] theorem fin_lt_fin (a b : ℚ) : fin a < fin b ↔ a < b := by
  show lt (fin a) (fin b) = true ↔ a < b
  simp [lt]
@[simp] theorem fabs_fin (a : ℚ) : fabs (fin a) = fin |a| := rfl
@[simp] theorem fin_inj (a b : ℚ) : fin a = fin b ↔ a = b := by
  constructor
  · intro h; injection h
  · intro h; rw [h]
end Dbl

theorem foldl_add_map_fin (l : List ℚ) (a : ℚ) :
    (l.map Dbl.fin).foldl (· + ·) (Dbl.fin a) = Dbl.fin (l.foldl (· + ·) a) := by
  induction l generalizing a with
  | nil => rfl
  | cons b l ih => simp only [List.map_cons, List.foldl_cons, Dbl.fin_add_fin, ih]

@[simp] theorem vsum_toVec {n : ℕ} (w : Fin n → ℚ) : vsum (toVec w) = Dbl.fin (∑ i, w i) := by
  have h : List.ofFn (toVec w) = (List.ofFn w).map Dbl.fin := by
    rw [List.map_ofFn]; rfl
  unfold vsum
  rw [h, Dbl.zero_def, foldl_add_map_fin, ← List.sum_eq_foldl, List.sum_ofFn]

@[simp] theorem toVec_apply {n : ℕ} (w : Fin n → ℚ) (i : Fin n) : toVec w i = Dbl.fin (w i) := rfl
@[simp] theorem toMat_apply {m n : ℕ} (A : Fin m → Fin n → ℚ) (i : Fin m) (j : Fin n) :
    toMat A i j = Dbl.fin (A i j) := rfl

@[simp] theorem inner_prod_toVec {n : ℕ} (u v : Fin n → ℚ) :
    inner_prod (toVec u) (toVec v) = Dbl.fin (∑ i, u i * v i) := by
  unfold inner_prod
  exact vsum_toVec (fun i => u i * v i)

@[simp] theorem mul_toMat_toVec {m n : ℕ} (A : Fin m → Fin n → ℚ) (v : Fin n → ℚ) :
    mul (toMat A) (toVec v) = toVec (fun i => ∑ j, A i j * v j) := by
  funext i
  exact vsum_toVec (fun j => A i j * v j)

@[simp] theorem vadd_toVec {n : ℕ} (u v : Fin n → ℚ) :
    vadd (toVec u) (toVec v) = toVec (fun i => u i + v i) := rfl
@[simp] theorem vsub_toVec {n : ℕ} (u v : Fin n → ℚ) :
    vsub (toVec u) (toVec v) = toVec (fun i => u i - v i) := by
  funext i; simp [vsub]
@[simp] theorem vneg_toVec {n : ℕ} (u : Fin n → ℚ) :
    vneg (toVec u) = toVec (fun i => - u i) := rfl
@[simp] theorem smul_toVec {n : ℕ} (c : ℚ) (u : Fin n → ℚ) :
    smul (Dbl.fin c) (toVec u) = toVec (fun i => c * u i) := rfl
@[simp] theorem vscale_toVec {n : ℕ} (c : ℚ) (u : Fin n → ℚ) :
    vscale (toVec u) (Dbl.fin c) = toVec (fun i => u i * c) := rfl
@[simp] theorem fabs_toVec {n : ℕ} (u : Fin n → ℚ) :
    fabs (toVec u) = toVec (fun i => |u i|) := rfl
@[simp] theorem sumRows_toVec {n : ℕ} (u : Fin n → ℚ) :
    sumRows (toVec u) = Dbl.fin (∑ i, u i) := vsum_toVec u
@[simp] theorem outer_prod_toVec {m n : ℕ} (u : Fin m → ℚ) (v : Fin n → ℚ) :
    outer_prod (toVec u) (toVec v) = toMat (fun i j => u i * v j) := rfl
@[simp] theorem madd_toMat {m n : ℕ} (A B : Fin m → Fin n → ℚ) :
    madd (toMat A) (toMat B) = toMat (fun i j => A i j + B i j) := rfl
@[simp] theorem msub_toMat {m n : ℕ} (A B : Fin m → Fin n → ℚ) :
    msub (toMat A) (toMat B) = toMat (fun i j => A i j - B i j) := by
  funext i j; simp [msub]
theorem mdiv_toMat {m n : ℕ} (A : Fin m → Fin n → ℚ) (c : ℚ) (hc : c ≠ 0) :
    mdiv (toMat A) (Dbl.fin c) = toMat (fun i j => A i j / c) := by
  funext i j; simp [mdiv, hc]

/-! ## The line search (claims C4, C5, C6) -/

theorem lineSearchLoop_ok_armijo {n m : ℕ} (S : NLPSolver n m) (o : Options) (x p : Vec n)
    (mu T1v DT1v : Dbl) (fuel : ℕ) (alpha : Dbl) (lsiter : Int) (a : Dbl) (l : Int)
    (h : lineSearchLoop S o x p mu T1v DT1v fuel alpha lsiter = .ok (a, l)) :
    armijo S o x p mu T1v DT1v a = true := by
  induction fuel generalizing alpha lsiter with
  | zero => simp [lineSearchLoop] at h
  | succ fuel ih =>
    rw [lineSearchLoop] at h
    by_cases hA : armijo S o x p mu T1v DT1v alpha = true
    · simp only [hA, if_true] at h
      injection h with h
      injection h with h1 h2
      rw [← h1]; exact hA
    · simp only [hA] at h
      by_cases hM : lsiter + 1 ≥ o.maxiter_ls
      · simp [hM] at h
      · simp only [hM, if_false] at h
        exact ih _ _ h

theorem lineSearchLoop_ok {n m : ℕ} (S : NLPSolver n m) (o : Options) (x p : Vec n)
    (mu T1v DT1v : Dbl) (fuel i j : ℕ) (hij : i ≤ j) (hfuel : j - i < fuel)
    (hfail : ∀ l, i ≤ l → l < j → armijo S o x p mu T1v DT1v (Dbl.fin (o.tau ^ l)) = false)
    (hpass : armijo S o x p mu T1v DT1v (Dbl.fin (o.tau ^ j)) = true)
    (hj : j = i ∨ (j : Int) < o.maxiter_ls) :
    lineSearchLoop S o x p mu T1v DT1v fuel (Dbl.fin (o.tau ^ i)) (i : Int)
      = .ok (Dbl.fin (o.tau ^ j), (j : Int)) := by
  induction fuel generalizing i with
  | zero => omega
  | succ fuel ih =>
    rw [lineSearchLoop]
    by_cases hA : armijo S o x p mu T1v DT1v (Dbl.fin (o.tau ^ i)) = true
    · have hji : j = i := by
        by_contra hne
        have := hfail i le_rfl (by omega)
        rw [this] at hA
        exact Bool.noConfusion hA
      simp only [hA, if_true, hji]
    · have hlt : i < j := by
        rcases Nat.lt_or_ge i j with h | h
        · exact h
        · have : j = i := le_antisymm h hij
          rw [this] at hpass
          exact absurd hpass hA
      have hjM : (j : Int) < o.maxiter_ls := by
        rcases hj with h | h
        · omega
        · exact h
      have hM : ¬ ((i : Int) + 1 ≥ o.maxiter_ls) := by omega
      simp only [hA, hM, if_false, Dbl.fin_mul_fin]
      have e1 : o.tau ^ i * o.tau = o.tau ^ (i + 1) := (pow_succ _ _).symm
      have e2 : (i : Int) + 1 = ((i + 1 : ℕ) : Int) := by push_cast; rfl
      rw [e1, e2]
      exact ih (i + 1) (by omega) (by omega) (fun l h1 h2 => hfail l (by omega) h2)
        (Or.inr hjM)

theorem lineSearchLoop_fail {n m : ℕ} (S : NLPSolver n m) (o : Options) (x p : Vec n)
    (mu T1v DT1v : Dbl) (fuel i : ℕ) (hfuel : (o.maxiter_ls - i).toNat + 1 ≤ fuel)
    (hfail : ∀ l : ℕ, i ≤ l → (l = i ∨ (l : Int) < o.maxiter_ls) →
      armijo S o x p mu T1v DT1v (Dbl.fin (o.tau ^ l)) = false) :
    lineSearchLoop S o x p mu T1v DT1v fuel (Dbl.fin (o.tau ^ i)) (i : Int)
      = .error .lineSearchFailed := by
  induction fuel generalizing i with
  | zero => omega
  | succ fuel ih =>
    rw [lineSearchLoop]
    have hA := hfail i le_rfl (Or.inl rfl)
    by_cases hM : (i : Int) + 1 ≥ o.maxiter_ls
    · simp [hA, hM]
    · simp only [hA, hM, if_false, Dbl.fin_mul_fin]
      have e1 : o.tau ^ i * o.tau = o.tau ^ (i + 1) := (pow_succ _ _).symm
      have e2 : (i : Int) + 1 = ((i + 1 : ℕ) : Int) := by push_cast; rfl
      simp only [Bool.false_eq_true, if_false]
      rw [e1, e2]
      exact ih (i + 1) (by omega) (fun l h1 h2 => hfail l (by omega) (by omega))

namespace Dbl
@[simp] theorem add_nan (a : Dbl) : a + nan = nan := by cases a <;> rfl
@[simp] theorem nan_add (a : Dbl) : nan + a = nan := by cases a <;> rfl
@[simp] theorem not_le_nan (a : Dbl) : ¬ (a ≤ nan) := by
  intro h; cases a <;> exact Bool.false_ne_true h
@[simp] theorem not_nan_le (a : Dbl) : ¬ (nan ≤ a) := by
  intro h; cases a <;> exact Bool.false_ne_true h
@[simp] theorem not_lt_nan (a : Dbl) : ¬ (a < nan) := by
  intro h; cases a <;> exact Bool.false_ne_true h
@[simp] theorem not_nan_lt (a : Dbl) : ¬ (nan < a) := by
  intro h; cases a <;> exact Bool.false_ne_true h
@[simp] theorem add_fin_zero (a : Dbl) : a + fin 0 = a := by
  cases a with
  | fin q => simp
  | _ => rfl
@[simp] theorem pinf_mul_zero : pinf * fin 0 = nan := by
  show infTimes true 0 = nan
  simp [infTimes]
@[simp] theorem ninf_mul_zero : ninf * fin 0 = nan := by
  show infTimes false 0 = nan
  simp [infTimes]
@[simp] theorem nan_mul (a : Dbl) : nan * a = nan := by cases a <;> rfl
@[simp] theorem mul_nan (a : Dbl) : a * nan = nan := by cases a <;> rfl
end Dbl

theorem vsum_one (v : Vec 1) : vsum v = v 0 := by
  show Dbl.add (Dbl.fin 0) (v 0) = v 0
  cases v 0 with
  | fin q => simp [Dbl.add]
  | _ => rfl

theorem inner_prod_one (u v : Vec 1) : inner_prod u v = u 0 * v 0 := vsum_one _

theorem T1_eq_spec_of_le {n m : ℕ} (S : NLPSolver n m) (mu : Dbl) (x : Vec n) (a b : Dbl)
    (h : a ≤ T1 S (S.F x) mu (evalG S x) + b) :
    T1 S (S.F x) mu (evalG S x) = T1_spec S mu x := by
  unfold T1 T1_spec feasviol evalG at *
  cases hG : S.GJ with
  | some c => rfl
  | none =>
    simp only [hG] at h ⊢
    cases mu with
    | fin q => simp
    | pinf => simp at h
    | ninf => simp at h
    | nan => simp at h

theorem DT1_eq_spec {n m : ℕ} (S : NLPSolver n m) (mu : Dbl) (x p : Vec n) :
    DT1 S mu (evalG S x) (S.gradF x) p = DT1_spec S mu x p := by
  unfold DT1 DT1_spec evalG
  cases S.GJ <;> rfl

/-- C4: whenever the backtracking loop, called as in the main loop, exits
normally with the step size `alpha`, the accepted `alpha` satisfies the Armijo
condition `T1(x + alpha p) ≤ T1(x) + eta alpha DT1` for the merit function
`T1(x) = f(x) + mu sum|g(x)|` and `DT1 = grad_fᵀ p - mu sum|g(x)|` (constraint
terms `0` when `G` is absent), with the same `mu` in all three. -/
theorem C4_armijo_acceptance {n m : ℕ} (S : NLPSolver n m) (o : Options) (x p : Vec n)
    (mu alpha : Dbl) (lsiter : Int)
    (h : lineSearch S o x p mu (T1 S (S.F x) mu (evalG S x))
      (DT1 S mu (evalG S x) (S.gradF x) p) = .ok (alpha, lsiter)) :
    T1_spec S mu (vadd x (smul alpha p))
      ≤ T1_spec S mu x + Dbl.fin o.eta * alpha * DT1_spec S mu x p := by
  have hA := lineSearchLoop_ok_armijo S o x p mu _ _ _ _ _ _ _ h
  unfold armijo at hA
  have hle := of_decide_eq_true hA
  rw [T1_eq_spec_of_le S mu x _ _ hle, DT1_eq_spec] at hle
  exact hle

theorem lineSearch_ok_of_first {n m : ℕ} (S : NLPSolver n m) (o : Options) (x p : Vec n)
    (mu T1v DT1v : Dbl) (j : ℕ) (hj : j = 0 ∨ (j : Int) < o.maxiter_ls)
    (hpass : armijo S o x p mu T1v DT1v (Dbl.fin (o.tau ^ j)) = true)
    (hfail : ∀ i, i < j → armijo S o x p mu T1v DT1v (Dbl.fin (o.tau ^ i)) = false) :
    lineSearch S o x p mu T1v DT1v = .ok (Dbl.fin (o.tau ^ j), (j : Int)) := by
  have h := lineSearchLoop_ok S o x p mu T1v DT1v (o.maxiter_ls.toNat + 1) 0 j (Nat.zero_le _)
    (by rcases hj with h | h <;> omega) (fun l _ h2 => hfail l h2) hpass hj
  simpa [lineSearch] using h

theorem lineSearch_squareSolver :
    lineSearch squareSolver defaultOptions (vec1 1) (vec1 (-2)) 0
      (T1 squareSolver (squareSolver.F (vec1 1)) 0 (evalG squareSolver (vec1 1)))
      (DT1 squareSolver 0 (evalG squareSolver (vec1 1)) (squareSolver.gradF (vec1 1)) (vec1 (-2)))
      = .ok (Dbl.fin (1 / 5), 1) := by
  have h := lineSearch_ok_of_first squareSolver defaultOptions (vec1 1) (vec1 (-2)) 0
      (T1 squareSolver (squareSolver.F (vec1 1)) 0 (evalG squareSolver (vec1 1)))
      (DT1 squareSolver 0 (evalG squareSolver (vec1 1)) (squareSolver.gradF (vec1 1)) (vec1 (-2)))
      1 (Or.inr (by decide))
      (by
        simp [armijo, T1_new, T1, DT1, feasviol, evalG, squareSolver, solver1, vec1,
          defaultOptions, inner_prod_one]
        norm_num)
      (by
        intro i hi
        have hi0 : i = 0 := by omega
        subst hi0
        simp [armijo, T1_new, T1, DT1, feasviol, evalG, squareSolver, solver1, vec1,
          defaultOptions, inner_prod_one]
        norm_num)
  have e : defaultOptions.tau ^ 1 = 1 / 5 := by norm_num [defaultOptions]
  rw [e] at h
  exact h

/-- Witness of C4: on `min x²` at `x = 1` with the step `p = -2` the line search
accepts `alpha = 1/5` after one backtrack. -/
theorem C4_armijo_acceptance_witness :
    lineSearch squareSolver defaultOptions (vec1 1) (vec1 (-2)) 0
        (T1 squareSolver (squareSolver.F (vec1 1)) 0 (evalG squareSolver (vec1 1)))
        (DT1 squareSolver 0 (evalG squareSolver (vec1 1)) (squareSolver.gradF (vec1 1))
          (vec1 (-2)))
        = .ok (Dbl.fin (1 / 5), 1) ∧
      T1_spec squareSolver 0 (vadd (vec1 1) (smul (Dbl.fin (1 / 5)) (vec1 (-2))))
        ≤ T1_spec squareSolver 0 (vec1 1)
          + Dbl.fin defaultOptions.eta * Dbl.fin (1 / 5) * DT1_spec squareSolver 0 (vec1 1) (vec1 (-2)) :=
  ⟨lineSearch_squareSolver,
    C4_armijo_acceptance squareSolver defaultOptions (vec1 1) (vec1 (-2)) 0 (Dbl.fin (1 / 5)) 1
      lineSearch_squareSolver⟩

theorem lineSearch_fail_of_all {n m : ℕ} (S : NLPSolver n m) (o : Options) (x p : Vec n)
    (mu T1v DT1v : Dbl) (hM : 1 ≤ o.maxiter_ls)
    (hfail : ∀ j : ℕ, (j : Int) < o.maxiter_ls →
      armijo S o x p mu T1v DT1v (Dbl.fin (o.tau ^ j)) = false) :
    lineSearch S o x p mu T1v DT1v = .error .lineSearchFailed := by
  have h := lineSearchLoop_fail S o x p mu T1v DT1v (o.maxiter_ls.toNat + 1) 0 (by omega)
    (fun l _ h2 => hfail l (by omega))
  simpa [lineSearch] using h

theorem iteration_lineSearch_error {n m : ℕ} (S : NLPSolver n m) (o : Options) (s : State n m)
    (out : QPOutput n m) (e : SQPError)
    (hqp : S.qp_solver (qpInput S s (evalG S s.x) (evalJ S s.x) (S.gradF s.x)) = some out)
    (hls : lineSearch S o s.x out.PRIMAL
        (meritMu S o s.merit_mu (evalG S s.x) (S.gradF s.x) out.PRIMAL s.Bk)
        (T1 S (S.F s.x) (meritMu S o s.merit_mu (evalG S s.x) (S.gradF s.x) out.PRIMAL s.Bk)
          (evalG S s.x))
        (DT1 S (meritMu S o s.merit_mu (evalG S s.x) (S.gradF s.x) out.PRIMAL s.Bk)
          (evalG S s.x) (S.gradF s.x) out.PRIMAL) = .error e) :
    iteration S o s = .error e := by
  unfold iteration
  simp only [hqp, hls]

theorem mainLoop_iteration_error {n m : ℕ} (S : NLPSolver n m) (o : Options) (s : State n m)
    (e : SQPError) (h : iteration S o s = .error e) (fuel : ℕ) :
    mainLoop S o (fuel + 1) s = .error e := by
  rw [mainLoop, h]

/-- C5: for `maxiter_ls ≥ 1` the backtracking loop tries the step sizes
`alpha_j = tau^j`, `j = 0, 1, 2, ...` in order and returns the first one that
passes the Armijo test, with `lsiter = j`; it fails with "linesearch failed"
if and only if the test fails for every `j` in `0 .. maxiter_ls - 1`; and then
the pass through the main loop, and the main loop, end with that error, before
any step is applied to `x`. -/
theorem C5_lineSearch_backtracking {n m : ℕ} (S : NLPSolver n m) (o : Options) (x p : Vec n)
    (mu T1v DT1v : Dbl) (hM : 1 ≤ o.maxiter_ls) :
    (∀ j : ℕ, (j : Int) < o.maxiter_ls →
        armijo S o x p mu T1v DT1v (Dbl.fin (o.tau ^ j)) = true →
        (∀ i, i < j → armijo S o x p mu T1v DT1v (Dbl.fin (o.tau ^ i)) = false) →
        lineSearch S o x p mu T1v DT1v = .ok (Dbl.fin (o.tau ^ j), (j : Int))) ∧
      (lineSearch S o x p mu T1v DT1v = .error .lineSearchFailed ↔
        ∀ j : ℕ, (j : Int) < o.maxiter_ls →
          armijo S o x p mu T1v DT1v (Dbl.fin (o.tau ^ j)) = false) ∧
      (∀ (s : State n m) (out : QPOutput n m),
        S.qp_solver (qpInput S s (evalG S s.x) (evalJ S s.x) (S.gradF s.x)) = some out →
        lineSearch S o s.x out.PRIMAL
          (meritMu S o s.merit_mu (evalG S s.x) (S.gradF s.x) out.PRIMAL s.Bk)
          (T1 S (S.F s.x) (meritMu S o s.merit_mu (evalG S s.x) (S.gradF s.x) out.PRIMAL s.Bk)
            (evalG S s.x))
          (DT1 S (meritMu S o s.merit_mu (evalG S s.x) (S.gradF s.x) out.PRIMAL s.Bk)
            (evalG S s.x) (S.gradF s.x) out.PRIMAL) = .error .lineSearchFailed →
        iteration S o s = .error .lineSearchFailed ∧
          ∀ fuel, mainLoop S o (fuel + 1) s = .error .lineSearchFailed) := by
  refine ⟨?_, ⟨?_, ?_⟩, ?_⟩
  · intro j hj hpass hfail
    exact lineSearch_ok_of_first S o x p mu T1v DT1v j (Or.inr hj) hpass hfail
  · intro herr j hj
    by_contra hne
    have hex : ∃ j : ℕ, (j : Int) < o.maxiter_ls ∧
        armijo S o x p mu T1v DT1v (Dbl.fin (o.tau ^ j)) = true :=
      ⟨j, hj, by simpa using hne⟩
    have hspec := Nat.find_spec hex
    have hmin := fun i (hi : i < Nat.find hex) => Nat.find_min hex hi
    have hok := lineSearch_ok_of_first S o x p mu T1v DT1v (Nat.find hex) (Or.inr hspec.1)
      hspec.2 (fun i hi => by
        have h1 := hmin i hi
        have h2 : (i : Int) < o.maxiter_ls := by
          have := hspec.1
          omega
        simpa [h2] using h1)
    rw [hok] at herr
    exact Except.noConfusion herr
  · intro hall
    exact lineSearch_fail_of_all S o x p mu T1v DT1v hM hall
  · intro s out hqp hls
    have hit := iteration_lineSearch_error S o s out _ hqp hls
    exact ⟨hit, fun fuel => mainLoop_iteration_error S o s _ hit fuel⟩

/-- Witness of C5: with the default options (`maxiter_ls = 100`), on `min x²` at
`x = 1` with the step `p = -2`, the first step size to pass is `tau^1`. -/
theorem C5_lineSearch_backtracking_witness :
    (1 : Int) ≤ defaultOptions.maxiter_ls ∧
      lineSearch squareSolver defaultOptions (vec1 1) (vec1 (-2)) 0 (Dbl.fin 1) (Dbl.fin (-4))
        = .ok (Dbl.fin (defaultOptions.tau ^ 1), ((1 : ℕ) : Int)) :=
  ⟨by decide,
    (C5_lineSearch_backtracking squareSolver defaultOptions (vec1 1) (vec1 (-2)) 0 (Dbl.fin 1)
      (Dbl.fin (-4)) (by decide)).1 1 (by decide)
      (by
        simp [armijo, T1_new, squareSolver, solver1, vec1, defaultOptions]
        norm_num)
      (by
        intro i hi
        have hi0 : i = 0 := by omega
        subst hi0
        simp [armijo, T1_new, squareSolver, solver1, vec1, defaultOptions]
        norm_num)⟩


theorem initState_Bk {n m : ℕ} (S : NLPSolver n m) (o : Options) (s0 : State n m)
    (h : initState S o = .ok s0) : s0.Bk = eye n ∧ s0.x = S.X_INIT := by
  unfold initState initialHessian at h
  by_cases hE : o.hessian_approximation = "exact"
  · cases hH : S.H with
    | none => simp [hE, hH] at h
    | some H =>
      simp only [hE, hH, if_true] at h
      injection h with h
      rw [← h]
      exact ⟨rfl, rfl⟩
  · simp only [hE, if_false] at h
    injection h with h
    rw [← h]
    exact ⟨rfl, rfl⟩

theorem qpInput_H {n m : ℕ} (S : NLPSolver n m) (s : State n m) (gk : Vec m) (Jgk : Mat m n)
    (gfk : Vec n) : (qpInput S s gk Jgk gfk).H = s.Bk := by
  unfold qpInput
  cases S.GJ <;> rfl

theorem eye_one : eye 1 = mat1 1 := by
  funext i j
  simp [eye, mat1, Subsingleton.elim i j]

theorem iteration_exact_Bk {n m : ℕ} (S : NLPSolver n m) (o : Options) (s s1 : State n m)
    (hE : o.hessian_approximation = "exact") (h : iteration S o s = .ok (.next s1)) :
    ∃ H, S.H = some H ∧ s1.Bk = evalH H s1.x s1.lambda_k := by
  have hB : ¬ (o.hessian_approximation = "BFGS") := by rw [hE]; decide
  unfold iteration at h
  simp only [hE, hB, if_true, if_false] at h
  split at h
  · exact Except.noConfusion h
  · split at h
    · exact Except.noConfusion h
    · split at h
      · simp at h
      · split at h
        · simp at h
        · split at h
          · simp at h
          · split at h
            · simp at h
            · split at h
              · exact Except.noConfusion h
              · rename_i Bk hBk
                split at hBk
                · exact Except.noConfusion hBk
                · rename_i H hH
                  injection hBk with hBk
                  injection h with h
                  injection h with h
                  refine ⟨H, hH, ?_⟩
                  have hne : ¬ ("exact" = "BFGS") := by decide
                  rw [← h, ← hBk]
                  simp only [hne, if_false]

/-- C7 (fails on the code): in the mode `hessian_approximation = exact` the
matrix passed to the QP solver in the first iteration is the identity, not the
output of the Hessian callback at `(x0, lambda = 0, sigma = 1)`: the initial
evaluation of `H` is stored in a variable of the inner block and lost.  For
`min x²` from `x0 = 1` with `H = (2)` the first `QP_H` is `(1)`.  From the second
iteration on `B` is the output of `H` at the current `x` and blended `lambda`. -/
theorem C7_first_qp_hessian_is_identity :
    (∀ {n m : ℕ} (S : NLPSolver n m) (o : Options) (s0 : State n m),
        initState S o = .ok s0 →
        (qpInput S s0 (evalG S s0.x) (evalJ S s0.x) (S.gradF s0.x)).H = eye n) ∧
      (∀ {n m : ℕ} (S : NLPSolver n m) (o : Options) (s s1 : State n m),
        o.hessian_approximation = "exact" → iteration S o s = .ok (.next s1) →
        ∃ H, S.H = some H ∧
          (qpInput S s1 (evalG S s1.x) (evalJ S s1.x) (S.gradF s1.x)).H
            = evalH H s1.x s1.lambda_k) ∧
      init exactSolver exactOptions = .ok () ∧
      exactOptions.hessian_approximation = "exact" ∧
      (∃ s0, initState exactSolver exactOptions = .ok s0 ∧
        (qpInput exactSolver s0 (evalG exactSolver s0.x) (evalJ exactSolver s0.x)
          (exactSolver.gradF s0.x)).H = mat1 1 ∧
        evalH hessTwo exactSolver.X_INIT (fun _ => 0) = mat1 2 ∧
        (qpInput exactSolver s0 (evalG exactSolver s0.x) (evalJ exactSolver s0.x)
          (exactSolver.gradF s0.x)).H ≠ evalH hessTwo exactSolver.X_INIT (fun _ => 0)) := by
  have hgen : ∀ {n m : ℕ} (S : NLPSolver n m) (o : Options) (s0 : State n m),
      initState S o = .ok s0 →
      (qpInput S s0 (evalG S s0.x) (evalJ S s0.x) (S.gradF s0.x)).H = eye n := by
    intro n m S o s0 h
    rw [qpInput_H]
    exact (initState_Bk S o s0 h).1
  refine ⟨hgen, ?_, ?_, rfl, ?_⟩
  · intro n m S o s s1 hE h
    obtain ⟨H, hH, hB⟩ := iteration_exact_Bk S o s s1 hE h
    exact ⟨H, hH, by rw [qpInput_H, hB]⟩
  · simp [init, exactSolver, exactOptions]
  · have hs : ∃ s0, initState exactSolver exactOptions = .ok s0 := by
      simp [initState, initialHessian, exactSolver, exactOptions]
    obtain ⟨s0, hs0⟩ := hs
    have hH := hgen exactSolver exactOptions s0 hs0
    have hE : evalH hessTwo exactSolver.X_INIT (fun _ => 0) = mat1 2 := by
      simp [evalH, hessTwo]
    refine ⟨s0, hs0, by rw [hH, eye_one], hE, ?_⟩
    rw [hH, hE, eye_one]
    intro h
    have := congrFun (congrFun h 0) 0
    simp [mat1] at this

/-! ## The update of `mu` (claims C8, C10) -/

theorem div_zero_not_finite (a : Dbl) : (a / Dbl.fin 0).isFinite = false := by
  cases a with
  | fin q =>
    show (if (0 : ℚ) = 0 then Dbl.infTimes true q else Dbl.fin (q / 0)).isFinite = false
    simp only [if_true, Dbl.infTimes]
    split
    · rfl
    · split <;> rfl
  | pinf =>
    show (if (0 : ℚ) ≤ 0 then Dbl.pinf else Dbl.ninf).isFinite = false
    simp [Dbl.isFinite]
  | ninf =>
    show (if (0 : ℚ) ≤ 0 then Dbl.ninf else Dbl.pinf).isFinite = false
    simp [Dbl.isFinite]
  | nan => rfl

theorem mu_lb_not_finite {n m : ℕ} (S : NLPSolver n m) (o : Options) (gk : Vec m)
    (gfk p : Vec n) (Bk : Mat n n) (h : feasviol S gk = 0) :
    (mu_lb S o gk gfk p Bk).isFinite = false := by
  rw [mu_lb, h]
  exact div_zero_not_finite _

theorem initState_eqSolver : initState eqSolver defaultOptions = .ok eqState0 := by
  simp [initState, initialHessian, eqSolver, defaultOptions, eqState0]

theorem armijo_T1_nan {n m : ℕ} (S : NLPSolver n m) (o : Options) (x p : Vec n)
    (mu DT1v alpha : Dbl) : armijo S o x p mu Dbl.nan DT1v alpha = false := by
  simp [armijo]

theorem qp_eqSolver :
    eqSolver.qp_solver (qpInput eqSolver eqState0 (evalG eqSolver eqState0.x)
      (evalJ eqSolver eqState0.x) (eqSolver.gradF eqState0.x))
      = some { PRIMAL := vec1 1, DUAL_A := vec1 2, DUAL_X := fun _ => 0 } := by
  simp [eqSolver, qpSolverEq, qpInput, eqState0, evalG, evalJ, vec1, mat1, vadd, vneg, eye]
  constructor <;> funext i <;> norm_num

theorem feasviol_eqSolver : feasviol eqSolver (evalG eqSolver eqState0.x) = 0 := by
  simp [feasviol, evalG, eqSolver, eqState0, vec1]

theorem mu_lb_eqSolver :
    mu_lb eqSolver defaultOptions (evalG eqSolver eqState0.x) (eqSolver.gradF eqState0.x)
      (vec1 1) eqState0.Bk = Dbl.pinf := by
  rw [mu_lb, feasviol_eqSolver]
  simp [eqSolver, eqState0, vec1, eye_one, mat1, defaultOptions]
  norm_num [Dbl.infTimes]

theorem meritMu_eqSolver :
    meritMu eqSolver defaultOptions eqState0.merit_mu (evalG eqSolver eqState0.x)
      (eqSolver.gradF eqState0.x) (vec1 1) eqState0.Bk = Dbl.pinf := by
  rw [meritMu, mu_lb_eqSolver]
  have h : eqState0.merit_mu < Dbl.pinf := by decide
  simp [muUpdate, h, defaultOptions]
  show Dbl.infTimes true _ = _
  norm_num [Dbl.infTimes]

theorem T1_eqSolver :
    T1 eqSolver (eqSolver.F eqState0.x) Dbl.pinf (evalG eqSolver eqState0.x) = Dbl.nan := by
  rw [T1, feasviol_eqSolver]
  simp

theorem iteration_eqSolver :
    iteration eqSolver defaultOptions eqState0 = .error .lineSearchFailed := by
  apply iteration_lineSearch_error eqSolver defaultOptions eqState0 _ _ qp_eqSolver
  simp only [meritMu_eqSolver, T1_eqSolver]
  apply lineSearch_fail_of_all _ _ _ _ _ _ _ (by decide)
  intro j _
  exact armijo_T1_nan _ _ _ _ _ _ _

theorem run_eqSolver : run eqSolver defaultOptions 0 0 = .error .lineSearchFailed := by
  have h : run eqSolver defaultOptions 0 0
      = mainLoop eqSolver defaultOptions (defaultOptions.maxiter.toNat + 1) eqState0 := by
    have hc : eqSolver.checkInitialBounds = true := rfl
    simp [run, initState_eqSolver, hc]
  rw [h]
  exact mainLoop_iteration_error _ _ _ _ iteration_eqSolver _

/-- C8 (fails on the code): the update of `mu` divides by `feasviol` without a
guard.  Whenever `feasviol = 0` the quotient `mu_lb` is not a finite number.
For `min x` subject to `x = 1` from `x0 = 0` with the default options, the
first iteration has `feasviol = 0` and the QP step `p = 1`; the division gives
`mu_lb = +inf`, `mu` changes from `0` to `+inf`, and `T1 = fk + mu*feasviol` is
`NaN` instead of `fk = 0`; every Armijo test then fails and `evaluate` ends with
"linesearch failed". -/
theorem C8_mu_update_divides_by_zero :
    (∀ {n m : ℕ} (S : NLPSolver n m) (o : Options) (gk : Vec m) (gfk p : Vec n) (Bk : Mat n n),
        feasviol S gk = 0 → (mu_lb S o gk gfk p Bk).isFinite = false) ∧
      initState eqSolver defaultOptions = .ok eqState0 ∧
      eqSolver.qp_solver (qpInput eqSolver eqState0 (evalG eqSolver eqState0.x)
          (evalJ eqSolver eqState0.x) (eqSolver.gradF eqState0.x))
        = some { PRIMAL := vec1 1, DUAL_A := vec1 2, DUAL_X := fun _ => 0 } ∧
      feasviol eqSolver (evalG eqSolver eqState0.x) = 0 ∧
      mu_lb eqSolver defaultOptions (evalG eqSolver eqState0.x) (eqSolver.gradF eqState0.x)
        (vec1 1) eqState0.Bk = Dbl.pinf ∧
      eqState0.merit_mu = 0 ∧
      meritMu eqSolver defaultOptions eqState0.merit_mu (evalG eqSolver eqState0.x)
        (eqSolver.gradF eqState0.x) (vec1 1) eqState0.Bk = Dbl.pinf ∧
      eqSolver.F eqState0.x = 0 ∧
      T1 eqSolver (eqSolver.F eqState0.x) Dbl.pinf (evalG eqSolver eqState0.x) = Dbl.nan ∧
      iteration eqSolver defaultOptions eqState0 = .error .lineSearchFailed ∧
      evaluate eqSolver defaultOptions 0 0 = .error .lineSearchFailed := by
  refine ⟨fun S o gk gfk p Bk h => mu_lb_not_finite S o gk gfk p Bk h, initState_eqSolver,
    qp_eqSolver, feasviol_eqSolver, mu_lb_eqSolver, rfl, meritMu_eqSolver, rfl, T1_eqSolver,
    iteration_eqSolver, ?_⟩
  rw [evaluate, run_eqSolver]

/-! ## The BFGS update is applied unconditionally (claim C9) -/

theorem thetak_toVec {n : ℕ} (A : Fin n → Fin n → ℚ) (d y : Fin n → ℚ)
    (h2 : 0.2 * (∑ i, d i * ∑ j, A i j * d j) ≤ ∑ i, d i * y i ∨
      (∑ i, d i * ∑ j, A i j * d j) ≠ ∑ i, d i * y i) :
    thetak (toMat A) (toVec d) (toVec y)
      = Dbl.fin (thetaQ A d y) := by
  unfold thetak ydx dxBdx Bdx thetaQ
  simp only [mul_toMat_toVec, inner_prod_toVec, Dbl.fin_mul_fin, ge_iff_le, Dbl.fin_le_fin,
    Dbl.fin_sub_fin, Dbl.fin_div_fin, Dbl.one_def]
  by_cases hb : 0.2 * (∑ i, d i * ∑ j, A i j * d j) ≤ ∑ i, d i * y i
  · simp only [hb, if_true]
  · have hne : (∑ i, d i * ∑ j, A i j * d j) - ∑ i, d i * y i ≠ 0 := by
      rcases h2 with h | h
      · exact absurd h hb
      · exact sub_ne_zero.mpr h
    simp only [hb, hne, if_false, Dbl.fin_sub_fin]

theorem Bdx_toVec {n : ℕ} (A : Fin n → Fin n → ℚ) (d : Fin n → ℚ) :
    Bdx (toMat A) (toVec d) = toVec (fun i => ∑ j, A i j * d j) := by
  simp [Bdx]

theorem rk_toVec {n : ℕ} (A : Fin n → Fin n → ℚ) (d y : Fin n → ℚ)
    (h2 : 0.2 * (∑ i, d i * ∑ j, A i j * d j) ≤ ∑ i, d i * y i ∨
      (∑ i, d i * ∑ j, A i j * d j) ≠ ∑ i, d i * y i) :
    rk (toMat A) (toVec d) (toVec y) = toVec (rkQ A d y) := by
  unfold rk
  rw [thetak_toVec A d y h2, Bdx_toVec]
  funext i
  simp [vadd, smul, rkQ]

theorem isSymPosDef_mat1_one : IsSymPosDef (mat1 1) := by
  refine ⟨fun _ _ => 1, rfl, fun _ _ => rfl, ?_⟩
  intro v hv
  have h0 : v 0 ≠ 0 := by
    intro h
    apply hv
    funext i
    rw [Subsingleton.elim i 0, h]
    rfl
  simpa using mul_self_pos.mpr h0

theorem not_isSymPosDef_mat1_neg : ¬ IsSymPosDef (mat1 (-1 / 5)) := by
  rintro ⟨A, hA, -, hpos⟩
  have hA00 : A 0 0 = -1 / 5 := by
    have h := congrFun (congrFun hA 0) 0
    simp [mat1] at h
    rw [← h]
  have h1 := hpos (fun _ => 1) (by
    intro h
    have := congrFun h 0
    simp at this)
  simp [hA00] at h1
  linarith

theorem bfgsUpdate_concave_step :
    bfgsUpdate (mat1 1) (vec1 (-1)) (vec1 1) = mat1 (-1 / 5) := by
  funext i j
  simp [bfgsUpdate, rk, thetak, ydx, dxBdx, Bdx, mat1, vec1, madd, msub, mdiv]
  norm_num

theorem initState_concaveSolver : initState concaveSolver defaultOptions = .ok concaveState0 := by
  simp [initState, initialHessian, concaveSolver, solver1, defaultOptions, concaveState0]

theorem qp_concaveSolver :
    concaveSolver.qp_solver (qpInput concaveSolver concaveState0 (evalG concaveSolver concaveState0.x)
      (evalJ concaveSolver concaveState0.x) (concaveSolver.gradF concaveState0.x))
      = some { PRIMAL := vec1 (-1), DUAL_A := fun _ => 0, DUAL_X := fun _ => 0 } := by
  simp [concaveSolver, solver1, qpSolver1, qpInput, concaveState0, vec1, eye]
  funext i
  norm_num

theorem meritMu_concaveSolver :
    meritMu concaveSolver defaultOptions concaveState0.merit_mu (evalG concaveSolver concaveState0.x)
      (concaveSolver.gradF concaveState0.x) (vec1 (-1)) concaveState0.Bk = 0 := by
  simp [meritMu, muUpdate, mu_lb, feasviol, concaveSolver, solver1, concaveState0, eye_one, mat1,
    vec1, defaultOptions, inner_prod_one]
  norm_num [Dbl.infTimes]
  decide

theorem exactSqrt_one : exactSqrt (Dbl.fin 1) = Dbl.fin 1 := by
  have h : Rat.sqrt 1 = 1 := by
    have h1 := Rat.sqrt_eq 1
    rw [mul_one, abs_one] at h1
    exact h1
  simp [exactSqrt, h]

theorem lineSearch_concaveSolver :
    lineSearch concaveSolver defaultOptions concaveState0.x (vec1 (-1)) 0
      (T1 concaveSolver (concaveSolver.F concaveState0.x) 0 (evalG concaveSolver concaveState0.x))
      (DT1 concaveSolver 0 (evalG concaveSolver concaveState0.x)
        (concaveSolver.gradF concaveState0.x) (vec1 (-1)))
      = .ok (Dbl.fin 1, 0) := by
  have h := lineSearch_ok_of_first concaveSolver defaultOptions concaveState0.x (vec1 (-1)) 0
      (T1 concaveSolver (concaveSolver.F concaveState0.x) 0 (evalG concaveSolver concaveState0.x))
      (DT1 concaveSolver 0 (evalG concaveSolver concaveState0.x)
        (concaveSolver.gradF concaveState0.x) (vec1 (-1)))
      0 (Or.inl rfl)
      (by
        simp [armijo, T1_new, T1, DT1, feasviol, evalG, concaveSolver, solver1, vec1,
          defaultOptions, inner_prod_one, concaveState0]
        norm_num)
      (by intro i hi; omega)
  simp at h
  exact h

/-- The first pass of the main loop on `min -x²/2` from `x0 = -1`: the step is
`dx = (-1)`, the gradient difference is `yk = (1)`, and `B = (1)` is updated by
the BFGS branch. -/
theorem iteration_concaveSolver :
    ∃ s1, iteration concaveSolver defaultOptions concaveState0 = .ok (.next s1) ∧
      s1.x = vec1 (-2) ∧ s1.Bk = bfgsUpdate (mat1 1) (vec1 (-1)) (vec1 1) := by
  unfold iteration
  simp only [qp_concaveSolver, meritMu_concaveSolver, lineSearch_concaveSolver]
  have hcb : concaveSolver.callback = none := rfl
  have hH : defaultOptions.hessian_approximation = "BFGS" := rfl
  have hdx : vscale (vec1 (-1)) (Dbl.fin 1) = vec1 (-1) := by
    funext i; simp [vec1]
  have hx : vadd concaveState0.x (vec1 (-1)) = vec1 (-2) := by
    funext i; simp [concaveState0, vec1]; norm_num
  have hgradL : vsub (vsub (concaveSolver.gradF concaveState0.x)
      (JtLambda concaveSolver (evalJ concaveSolver concaveState0.x) fun _ => 0)) (fun _ => 0)
      = vec1 1 := by
    funext i; simp [concaveSolver, solver1, concaveState0, vec1, JtLambda, vsub]
  have hn1 : norm_2 concaveSolver.sqrt (vec1 (-1)) = Dbl.fin 1 := by
    simp [norm_2, vec1, concaveSolver, solver1, exactSqrt_one]
  have hn2 : norm_2 concaveSolver.sqrt (vec1 1) = Dbl.fin 1 := by
    simp [norm_2, vec1, concaveSolver, solver1, exactSqrt_one]
  have ht1 : ¬ (Dbl.fin 1 < Dbl.fin defaultOptions.toldx) := by
    simp [defaultOptions]; norm_num
  have ht2 : ¬ (Dbl.fin 1 < Dbl.fin defaultOptions.tolgl) := by
    simp [defaultOptions]; norm_num
  have hk : ¬ (concaveState0.k + 1 ≥ defaultOptions.maxiter) := by decide
  have hne : ¬ ("BFGS" = "exact") := by decide
  have hyk : vsub (vsub (vsub (concaveSolver.gradF (vec1 (-2)))
      (JtLambda concaveSolver (evalJ concaveSolver (vec1 (-2)))
        (blend (Dbl.fin 1) (fun _ => 0) concaveState0.lambda_k)))
      (blend (Dbl.fin 1) (fun _ => 0) concaveState0.lambda_x_k)) (vec1 1) = vec1 1 := by
    funext i
    simp [concaveSolver, solver1, concaveState0, vec1, JtLambda, vsub, blend, vadd, smul]
    norm_num
  have hB : concaveState0.Bk = mat1 1 := eye_one
  simp only [hcb, hH, hdx, hx, hgradL, hn1, hn2, ht1, ht2, hk, hne, hyk, hB, if_false,
    Bool.false_eq_true, if_true]
  exact ⟨_, rfl, rfl, rfl⟩

theorem thetak_spec_toVec {n : ℕ} (A : Fin n → Fin n → ℚ) (d y : Fin n → ℚ)
    (hb : ¬ (0.2 * (∑ i, d i * ∑ j, A i j * d j) ≤ ∑ i, d i * y i))
    (hne : (∑ i, d i * ∑ j, A i j * d j) ≠ ∑ i, d i * y i) :
    thetak_spec (toMat A) (toVec d) (toVec y)
      = Dbl.fin (0.8 * (∑ i, d i * ∑ j, A i j * d j)
          / ((∑ i, d i * ∑ j, A i j * d j) - ∑ i, d i * y i)) := by
  unfold thetak_spec ydx dxBdx Bdx
  simp only [mul_toMat_toVec, inner_prod_toVec, Dbl.fin_mul_fin, ge_iff_le, Dbl.fin_le_fin,
    Dbl.fin_sub_fin, Dbl.fin_div_fin, Dbl.one_def]
  simp only [hb, sub_ne_zero.mpr hne, if_false]

theorem thetak_damped {n : ℕ} (A : Fin n → Fin n → ℚ) (d y : Fin n → ℚ)
    (hb : ¬ (0.2 * (∑ i, d i * ∑ j, A i j * d j) ≤ ∑ i, d i * y i))
    (hne : (∑ i, d i * ∑ j, A i j * d j) ≠ ∑ i, d i * y i) :
    thetak (toMat A) (toVec d) (toVec y)
      = Dbl.fin (1 - 0.8 * (∑ i, d i * ∑ j, A i j * d j)
          / ((∑ i, d i * ∑ j, A i j * d j) - ∑ i, d i * y i)) := by
  rw [thetak_toVec A d y (Or.inr hne), thetaQ]
  simp only [hb, if_false]

theorem rk_dx_damped {n : ℕ} (A : Fin n → Fin n → ℚ) (d y : Fin n → ℚ)
    (hb : ¬ (0.2 * (∑ i, d i * ∑ j, A i j * d j) ≤ ∑ i, d i * y i))
    (hne : (∑ i, d i * ∑ j, A i j * d j) ≠ ∑ i, d i * y i) :
    inner_prod (rk (toMat A) (toVec d) (toVec y)) (toVec d)
      = Dbl.fin ((∑ i, d i * y i) + 0.8 * (∑ i, d i * ∑ j, A i j * d j)) := by
  rw [rk_toVec A d y (Or.inr hne), inner_prod_toVec, Dbl.fin_inj]
  have e : ∀ i, rkQ A d y i * d i
      = thetaQ A d y * (d i * y i) + (1 - thetaQ A d y) * (d i * ∑ j, A i j * d j) := by
    intro i; unfold rkQ; ring
  simp only [e, Finset.sum_add_distrib, ← Finset.mul_sum]
  have hθ : thetaQ A d y = 1 - 0.8 * (∑ i, d i * ∑ j, A i j * d j)
      / ((∑ i, d i * ∑ j, A i j * d j) - ∑ i, d i * y i) := by
    unfold thetaQ
    simp only [hb, if_false]
  rw [hθ]
  have h0 := sub_ne_zero.mpr hne
  field_simp
  ring

/-- C1 (fails on the code): the BFGS branch does not preserve positive
definiteness.  On `min -x²/2` from `x0 = -1` with the default options the first
pass of the main loop calls the branch with the symmetric positive-definite
`B = (1)`, the step `dx = (-1) ≠ 0` and the gradient difference `yk = (1)`, and
the branch computes `B_new = (-1/5)`, which is not positive-definite. -/
theorem C1_bfgs_update_not_posdef :
    initState concaveSolver defaultOptions = .ok concaveState0 ∧
      (∃ s1, iteration concaveSolver defaultOptions concaveState0 = .ok (.next s1) ∧
        s1.x = vec1 (-2) ∧ s1.Bk = bfgsUpdate (mat1 1) (vec1 (-1)) (vec1 1)) ∧
      IsSymPosDef (mat1 1) ∧ vec1 (-1) ≠ (fun _ => 0) ∧
      bfgsUpdate (mat1 1) (vec1 (-1)) (vec1 1) = mat1 (-1 / 5) ∧
      ¬ IsSymPosDef (bfgsUpdate (mat1 1) (vec1 (-1)) (vec1 1)) := by
  refine ⟨initState_concaveSolver, iteration_concaveSolver, isSymPosDef_mat1_one, ?_,
    bfgsUpdate_concave_step, ?_⟩
  · intro h
    have := congrFun h 0
    simp [vec1] at this
  · rw [bfgsUpdate_concave_step]
    exact not_isSymPosDef_mat1_neg

/-- C2 (fails on the code): in the damped branch the code computes
`thetak = 1 - 0.8 dxBdx/(dxBdx - ydx)`, not `0.8 dxBdx/(dxBdx - ydx)`.  For
`B = (1)`, `dx = (-1)`, `yk = (1)` (so `dxBdx = 1` and `ydx = -1 < 0.2 dxBdx`)
the code has `thetak = 3/5` and `rk = (1/5)`, where the specified factor is
`2/5` and the specified `rk = theta*yk + (1-theta)*B dx` is `(-1/5)`.  The first
part gives both factors for all finite data of the damped branch. -/
theorem C2_thetak_differs_from_spec :
    (∀ {n : ℕ} (A : Fin n → Fin n → ℚ) (d y : Fin n → ℚ),
        ¬ (0.2 * (∑ i, d i * ∑ j, A i j * d j) ≤ ∑ i, d i * y i) →
        (∑ i, d i * ∑ j, A i j * d j) ≠ ∑ i, d i * y i →
        thetak (toMat A) (toVec d) (toVec y)
            = Dbl.fin (1 - 0.8 * (∑ i, d i * ∑ j, A i j * d j)
                / ((∑ i, d i * ∑ j, A i j * d j) - ∑ i, d i * y i)) ∧
          thetak_spec (toMat A) (toVec d) (toVec y)
            = Dbl.fin (0.8 * (∑ i, d i * ∑ j, A i j * d j)
                / ((∑ i, d i * ∑ j, A i j * d j) - ∑ i, d i * y i))) ∧
      dxBdx (mat1 1) (vec1 (-1)) = Dbl.fin 1 ∧ ydx (vec1 (-1)) (vec1 1) = Dbl.fin (-1) ∧
      ¬ (ydx (vec1 (-1)) (vec1 1) ≥ Dbl.fin 0.2 * dxBdx (mat1 1) (vec1 (-1))) ∧
      thetak (mat1 1) (vec1 (-1)) (vec1 1) = Dbl.fin (3 / 5) ∧
      thetak_spec (mat1 1) (vec1 (-1)) (vec1 1) = Dbl.fin (2 / 5) ∧
      rk (mat1 1) (vec1 (-1)) (vec1 1) = vec1 (1 / 5) ∧
      vadd (smul (thetak_spec (mat1 1) (vec1 (-1)) (vec1 1)) (vec1 1))
        (smul (1 - thetak_spec (mat1 1) (vec1 (-1)) (vec1 1)) (Bdx (mat1 1) (vec1 (-1))))
        = vec1 (-1 / 5) := by
  have h1 : thetak (mat1 1) (vec1 (-1)) (vec1 1) = Dbl.fin (3 / 5) := by
    simp [thetak, ydx, dxBdx, Bdx, mat1, vec1]
    norm_num
  have h2 : thetak_spec (mat1 1) (vec1 (-1)) (vec1 1) = Dbl.fin (2 / 5) := by
    simp [thetak_spec, ydx, dxBdx, Bdx, mat1, vec1]
    norm_num
  refine ⟨fun A d y hb hne => ⟨thetak_damped A d y hb hne, thetak_spec_toVec A d y hb hne⟩,
    by simp [dxBdx, Bdx, mat1, vec1], by simp [ydx, vec1], ?_, h1, h2, ?_, ?_⟩
  · simp [ydx, dxBdx, Bdx, mat1, vec1]
    norm_num
  · rw [rk, h1]
    funext i
    simp [Bdx, mat1, vec1]
    norm_num
  · rw [h2]
    funext i
    simp [Bdx, mat1, vec1]
    norm_num

/-- C3 (fails on the code): the damped vector of the code can miss the
curvature bound.  For the symmetric positive-definite `B = (1)`, `dx = (-1)`,
`yk = (1)` the code has `rkᵀ dx = -1/5`, below `0.2 dxᵀ B dx = 1/5`.  In the
damped branch the code has `rkᵀ dx = ydx + 0.8 dxBdx` for all finite data. -/
theorem C3_curvature_bound_fails :
    (∀ {n : ℕ} (A : Fin n → Fin n → ℚ) (d y : Fin n → ℚ),
        ¬ (0.2 * (∑ i, d i * ∑ j, A i j * d j) ≤ ∑ i, d i * y i) →
        (∑ i, d i * ∑ j, A i j * d j) ≠ ∑ i, d i * y i →
        inner_prod (rk (toMat A) (toVec d) (toVec y)) (toVec d)
          = Dbl.fin ((∑ i, d i * y i) + 0.8 * (∑ i, d i * ∑ j, A i j * d j))) ∧
      IsSymPosDef (mat1 1) ∧
      inner_prod (rk (mat1 1) (vec1 (-1)) (vec1 1)) (vec1 (-1)) = Dbl.fin (-1 / 5) ∧
      Dbl.fin 0.2 * dxBdx (mat1 1) (vec1 (-1)) = Dbl.fin (1 / 5) ∧
      ¬ (inner_prod (rk (mat1 1) (vec1 (-1)) (vec1 1)) (vec1 (-1))
          ≥ Dbl.fin 0.2 * dxBdx (mat1 1) (vec1 (-1))) := by
  have h1 : inner_prod (rk (mat1 1) (vec1 (-1)) (vec1 1)) (vec1 (-1)) = Dbl.fin (-1 / 5) := by
    simp [rk, thetak, ydx, dxBdx, Bdx, mat1, vec1]
    norm_num
  have h2 : Dbl.fin 0.2 * dxBdx (mat1 1) (vec1 (-1)) = Dbl.fin (1 / 5) := by
    simp [dxBdx, Bdx, mat1, vec1]
    norm_num
  refine ⟨fun A d y hb hne => rk_dx_damped A d y hb hne, isSymPosDef_mat1_one, h1, h2, ?_⟩
  rw [h1, h2]
  simp
  norm_num

/-! ## The body of the main loop, by parts -/

theorem iteration_eq_afterLineSearch {n m : ℕ} (S : NLPSolver n m) (o : Options)
    (s : State n m) (out : QPOutput n m) (alpha : Dbl) (lsiter : Int)
    (hqp : S.qp_solver (qpInput S s (evalG S s.x) (evalJ S s.x) (S.gradF s.x)) = some out)
    (hls : lineSearchOf S o s out = .ok (alpha, lsiter)) :
    iteration S o s = afterLineSearch S o s out alpha lsiter := by
  unfold lineSearchOf muOf at hls
  unfold iteration
  simp only [hqp, hls]
  unfold afterLineSearch stopRequested observerInput normdxOf normgradLOf gradLOf steppedState
    reevaluatedState updatedHessian ykOf gradLOf
  by_cases h1 : o.hessian_approximation = "exact"
  · cases hH : S.H <;> simp only [h1, if_true] <;> split_ifs <;> rfl
  · simp only [h1, if_false]
    split_ifs <;> rfl

theorem iteration_ok_inv {n m : ℕ} (S : NLPSolver n m) (o : Options) (s : State n m)
    (r : Outcome n m) (h : iteration S o s = .ok r) :
    ∃ out alpha lsiter,
      S.qp_solver (qpInput S s (evalG S s.x) (evalJ S s.x) (S.gradF s.x)) = some out ∧
      lineSearchOf S o s out = .ok (alpha, lsiter) ∧
      afterLineSearch S o s out alpha lsiter = .ok r := by
  cases hqp : S.qp_solver (qpInput S s (evalG S s.x) (evalJ S s.x) (S.gradF s.x)) with
  | none =>
    unfold iteration at h
    simp only [hqp] at h
    exact Except.noConfusion h
  | some out =>
    cases hls : lineSearchOf S o s out with
    | error e =>
      have := iteration_lineSearch_error S o s out e hqp hls
      rw [this] at h
      exact Except.noConfusion h
    | ok al =>
      obtain ⟨alpha, lsiter⟩ := al
      refine ⟨out, alpha, lsiter, rfl, hls, ?_⟩
      rw [← iteration_eq_afterLineSearch S o s out alpha lsiter hqp hls]
      exact h

theorem afterLineSearch_next_inv {n m : ℕ} (S : NLPSolver n m) (o : Options) (s : State n m)
    (out : QPOutput n m) (alpha : Dbl) (lsiter : Int) (s1 : State n m)
    (h : afterLineSearch S o s out alpha lsiter = .ok (.next s1)) :
    stopRequested S s out alpha lsiter = false ∧
      ¬ (normdxOf S out alpha < Dbl.fin o.toldx) ∧
      ¬ (normgradLOf S s out < Dbl.fin o.tolgl) ∧
      ¬ (s.k + 1 ≥ o.maxiter) ∧
      ∃ Bk, updatedHessian S o s out alpha = .ok Bk ∧
        s1 = { reevaluatedState S s out alpha with Bk := Bk } := by
  unfold afterLineSearch at h
  split_ifs at h with h1 h2 h3 h4
  · simp at h
  · simp at h
  · simp at h
  · simp at h
  · cases hB : updatedHessian S o s out alpha with
    | error e =>
      rw [hB] at h
      exact Except.noConfusion h
    | ok Bk =>
      rw [hB] at h
      simp only [Except.ok.injEq, Outcome.next.injEq] at h
      exact ⟨by simpa using h1, h2, h3, h4, Bk, rfl, h.symm⟩

theorem afterLineSearch_stop_inv {n m : ℕ} (S : NLPSolver n m) (o : Options) (s : State n m)
    (out : QPOutput n m) (alpha : Dbl) (lsiter : Int) (s1 : State n m) (r : StopReason)
    (h : afterLineSearch S o s out alpha lsiter = .ok (.stop s1 r)) :
    (r ≠ .maxIter ∧ s1 = steppedState S s out alpha) ∨
      (r = .maxIter ∧ s1 = reevaluatedState S s out alpha) := by
  unfold afterLineSearch at h
  split_ifs at h with h1 h2 h3 h4
  · simp only [Except.ok.injEq, Outcome.stop.injEq] at h
    exact Or.inl ⟨by rw [← h.2]; decide, h.1.symm⟩
  · simp only [Except.ok.injEq, Outcome.stop.injEq] at h
    exact Or.inl ⟨by rw [← h.2]; decide, h.1.symm⟩
  · simp only [Except.ok.injEq, Outcome.stop.injEq] at h
    exact Or.inl ⟨by rw [← h.2]; decide, h.1.symm⟩
  · simp only [Except.ok.injEq, Outcome.stop.injEq] at h
    exact Or.inr ⟨h.2.symm, h.1.symm⟩
  · cases hB : updatedHessian S o s out alpha with
    | error e =>
      rw [hB] at h
      exact Except.noConfusion h
    | ok Bk =>
      rw [hB] at h
      simp at h

theorem iteration_next_inv {n m : ℕ} (S : NLPSolver n m) (o : Options) (s s1 : State n m)
    (h : iteration S o s = .ok (.next s1)) :
    ∃ out alpha lsiter Bk,
      S.qp_solver (qpInput S s (evalG S s.x) (evalJ S s.x) (S.gradF s.x)) = some out ∧
      lineSearchOf S o s out = .ok (alpha, lsiter) ∧
      ¬ (s.k + 1 ≥ o.maxiter) ∧
      s1 = { reevaluatedState S s out alpha with Bk := Bk } := by
  obtain ⟨out, alpha, lsiter, hqp, hls, ha⟩ := iteration_ok_inv S o s _ h
  obtain ⟨-, -, -, hk, Bk, -, hs⟩ := afterLineSearch_next_inv S o s out alpha lsiter s1 ha
  exact ⟨out, alpha, lsiter, Bk, hqp, hls, hk, hs⟩

theorem iteration_next_merit_mu {n m : ℕ} (S : NLPSolver n m) (o : Options) (s s1 : State n m)
    (h : iteration S o s = .ok (.next s1)) : s1.merit_mu = s.merit_mu := by
  obtain ⟨out, alpha, lsiter, Bk, -, -, -, hs⟩ := iteration_next_inv S o s s1 h
  rw [hs]
  rfl

theorem initState_merit_mu {n m : ℕ} (S : NLPSolver n m) (o : Options) (s0 : State n m)
    (h : initState S o = .ok s0) : s0.merit_mu = 0 ∧ s0.k = 0 := by
  unfold initState at h
  cases hB : initialHessian S o S.X_INIT (fun _ => 0) with
  | error e =>
    simp only [hB] at h
    exact Except.noConfusion h
  | ok Bk =>
    simp only [hB] at h
    injection h with h
    rw [← h]
    exact ⟨rfl, rfl⟩

theorem reachable_merit_mu {n m : ℕ} (S : NLPSolver n m) (o : Options) (s : State n m)
    (h : Reachable S o s) : s.merit_mu = 0 := by
  induction h with
  | init s0 h0 => exact (initState_merit_mu S o s0 h0).1
  | step s s1 _ hit ih => rw [iteration_next_merit_mu S o s s1 hit, ih]

/-! ## Initialisation (claim C18) -/

/-- C18: given that the initialisation of the base class and the creation of
the QP solver succeed, `init` fails with the missing-Hessian error if and only
if the option `hessian_approximation` equals `exact` and no Hessian callback
`H` was supplied; in every other configuration `init` completes. -/
theorem C18_init_missing_hessian {n m : ℕ} (S : NLPSolver n m) (o : Options) :
    (init S o = .error .missingHessian ↔ (o.hessian_approximation = "exact" ∧ S.H = none)) ∧
      (¬ (o.hessian_approximation = "exact" ∧ S.H = none) → init S o = .ok ()) := by
  have hnone : S.H.isNone = true ↔ S.H = none := Option.isNone_iff_eq_none
  unfold init
  constructor
  · constructor
    · intro h
      by_cases hc : o.hessian_approximation = "exact" ∧ S.H.isNone = true
      · exact ⟨hc.1, hnone.mp hc.2⟩
      · rw [if_neg hc] at h
        exact Except.noConfusion h
    · intro h
      rw [if_pos ⟨h.1, hnone.mpr h.2⟩]
  · intro h
    rw [if_neg (fun hc => h ⟨hc.1, hnone.mp hc.2⟩)]

/-! ## The merit parameter (claim C19) -/

theorem muUpdate_zero_cases (o : Options) (mu_lb : Dbl) :
    muUpdate o 0 mu_lb = 0 ∨ muUpdate o 0 mu_lb = mu_lb * Dbl.fin o.mu_safety := by
  unfold muUpdate
  split_ifs
  · exact Or.inr rfl
  · exact Or.inl rfl

/-- C19: the variable `merit_mu` is `0` on entry to the main loop and no pass
changes it; so in every pass the update of `mu` starts from `mu = 0`, and the
`mu` of the merit function and the line search of that pass is the result of
the update step applied to `0` and the `mu_lb` of that pass: either `0` or
`mu_lb*mu_safety`. -/
theorem C19_merit_mu_not_persisted {n m : ℕ} (S : NLPSolver n m) (o : Options)
    (s : State n m) (h : Reachable S o s) :
    s.merit_mu = 0 ∧
      (∀ s1, iteration S o s = .ok (.next s1) → s1.merit_mu = 0) ∧
      ∀ out : QPOutput n m,
        muOf S o s out
            = muUpdate o 0 (mu_lb S o (evalG S s.x) (S.gradF s.x) out.PRIMAL s.Bk) ∧
          (muOf S o s out = 0 ∨
            muOf S o s out
              = mu_lb S o (evalG S s.x) (S.gradF s.x) out.PRIMAL s.Bk * Dbl.fin o.mu_safety) := by
  have h0 := reachable_merit_mu S o s h
  refine ⟨h0, ?_, ?_⟩
  · intro s1 h1
    rw [iteration_next_merit_mu S o s s1 h1, h0]
  · intro out
    have e : muOf S o s out
        = muUpdate o 0 (mu_lb S o (evalG S s.x) (S.gradF s.x) out.PRIMAL s.Bk) := by
      unfold muOf meritMu
      rw [h0]
    exact ⟨e, by rw [e]; exact muUpdate_zero_cases o _⟩

/-- Witness of C19: the second pass of the main loop on `min -x²/2` from
`x0 = -1`. -/
theorem C19_merit_mu_not_persisted_witness :
    ∃ s1, Reachable concaveSolver defaultOptions s1 ∧ s1.x = vec1 (-2) ∧ s1.merit_mu = 0 := by
  obtain ⟨s1, h1, hx, -⟩ := iteration_concaveSolver
  have hr : Reachable concaveSolver defaultOptions s1 :=
    Reachable.step concaveState0 s1 (Reachable.init _ initState_concaveSolver) h1
  exact ⟨s1, hr, hx, (C19_merit_mu_not_persisted concaveSolver defaultOptions s1 hr).1⟩

/-! ## The observer (claim C17) -/

theorem toBool_eq_true_iff (d : Dbl) : d.toBool = true ↔ d ≠ 0 := by
  cases d <;> simp [Dbl.toBool]

theorem toBool_eq_false_iff (d : Dbl) : d.toBool = false ↔ d = 0 := by
  cases d <;> simp [Dbl.toBool]

theorem mainLoop_stop {n m : ℕ} (S : NLPSolver n m) (o : Options) (s s1 : State n m)
    (r : StopReason) (h : iteration S o s = .ok (.stop s1 r)) (fuel : ℕ) :
    mainLoop S o (fuel + 1) s = .ok (s1, r) := by
  rw [mainLoop, h]

theorem mainLoop_next {n m : ℕ} (S : NLPSolver n m) (o : Options) (s s1 : State n m)
    (h : iteration S o s = .ok (.next s1)) (fuel : ℕ) :
    mainLoop S o (fuel + 1) s = mainLoop S o fuel s1 := by
  rw [mainLoop, h]

theorem lineSearchLoop_callback {n m : ℕ} (S : NLPSolver n m)
    (c : Option (CallbackInput n → Dbl)) (o : Options) (x p : Vec n)
    (mu T1v DT1v : Dbl) (fuel : ℕ) (alpha : Dbl) (lsiter : Int) :
    lineSearchLoop { S with callback := c } o x p mu T1v DT1v fuel alpha lsiter
      = lineSearchLoop S o x p mu T1v DT1v fuel alpha lsiter := by
  induction fuel generalizing alpha lsiter with
  | zero => rfl
  | succ fuel ih =>
    rw [lineSearchLoop, lineSearchLoop]
    have ha : armijo { S with callback := c } o x p mu T1v DT1v alpha
        = armijo S o x p mu T1v DT1v alpha := rfl
    rw [ha]
    simp only [ih]

theorem lineSearchOf_callback {n m : ℕ} (S : NLPSolver n m)
    (c : Option (CallbackInput n → Dbl)) (o : Options) (s : State n m) (out : QPOutput n m) :
    lineSearchOf { S with callback := c } o s out = lineSearchOf S o s out := by
  unfold lineSearchOf lineSearch
  exact lineSearchLoop_callback S c o _ _ _ _ _ _ _ _

theorem iteration_callback_none {n m : ℕ} (S : NLPSolver n m) (o : Options) (s : State n m)
    (out : QPOutput n m) (alpha : Dbl) (lsiter : Int)
    (hqp : S.qp_solver (qpInput S s (evalG S s.x) (evalJ S s.x) (S.gradF s.x)) = some out)
    (hls : lineSearchOf S o s out = .ok (alpha, lsiter))
    (hno : stopRequested S s out alpha lsiter = false) :
    iteration S o s = iteration { S with callback := none } o s := by
  rw [iteration_eq_afterLineSearch S o s out alpha lsiter hqp hls,
    iteration_eq_afterLineSearch { S with callback := none } o s out alpha lsiter hqp
      (by rw [lineSearchOf_callback]; exact hls)]
  unfold afterLineSearch
  have h2 : stopRequested { S with callback := none } s out alpha lsiter = false := rfl
  rw [hno, h2]
  rfl

/-- C17: when an observer is present and replies with a non-zero scalar in a
pass, the pass ends with the `break` "stop requested by user" and the main loop
ends there, without convergence tests, evaluation at the new point or Hessian
update, and the iterate and the cost of the final state (the outputs `x_opt`
and `cost`) are exactly those passed to the observer; when the reply is zero
the pass proceeds exactly as if no observer were present. -/
theorem C17_observer_early_stop {n m : ℕ} (S : NLPSolver n m) (o : Options) (s : State n m)
    (cb : CallbackInput n → Dbl) (out : QPOutput n m) (alpha : Dbl) (lsiter : Int)
    (hcb : S.callback = some cb)
    (hqp : S.qp_solver (qpInput S s (evalG S s.x) (evalJ S s.x) (S.gradF s.x)) = some out)
    (hls : lineSearchOf S o s out = .ok (alpha, lsiter)) :
    (cb (observerInput S s out alpha lsiter) ≠ 0 →
        iteration S o s = .ok (.stop (steppedState S s out alpha) .userStop) ∧
        (∀ fuel, mainLoop S o (fuel + 1) s = .ok (steppedState S s out alpha, .userStop)) ∧
        (steppedState S s out alpha).x = (observerInput S s out alpha lsiter).X_OPT ∧
        (steppedState S s out alpha).fk = (observerInput S s out alpha lsiter).COST ∧
        (steppedState S s out alpha).Bk = s.Bk) ∧
      (cb (observerInput S s out alpha lsiter) = 0 →
        iteration S o s = iteration { S with callback := none } o s) := by
  have hsr : stopRequested S s out alpha lsiter
      = (cb (observerInput S s out alpha lsiter)).toBool := by
    unfold stopRequested
    rw [hcb]
  constructor
  · intro hne
    have hstop : stopRequested S s out alpha lsiter = true := by
      rw [hsr]
      exact (toBool_eq_true_iff _).mpr hne
    have hit : iteration S o s = .ok (.stop (steppedState S s out alpha) .userStop) := by
      rw [iteration_eq_afterLineSearch S o s out alpha lsiter hqp hls]
      unfold afterLineSearch
      rw [if_pos hstop]
    exact ⟨hit, fun fuel => mainLoop_stop S o s _ _ hit fuel, rfl, rfl, rfl⟩
  · intro h0
    have hno : stopRequested S s out alpha lsiter = false := by
      rw [hsr]
      exact (toBool_eq_false_iff _).mpr h0
    exact iteration_callback_none S o s out alpha lsiter hqp hls hno

theorem lineSearchOf_concaveSolver (M : Int) (t : ℚ) :
    lineSearchOf concaveSolver (tunedOptions M t) concaveState0 concaveOut
      = .ok (Dbl.fin 1, 0) := by
  have hmu : muOf concaveSolver (tunedOptions M t) concaveState0 concaveOut = 0 := by
    simp [muOf, concaveOut, meritMu, muUpdate, mu_lb, feasviol, concaveSolver, solver1,
      concaveState0, eye_one, mat1, vec1, defaultOptions, tunedOptions, inner_prod_one]
    norm_num [Dbl.infTimes]
    decide
  unfold lineSearchOf
  rw [hmu]
  have h := lineSearch_ok_of_first concaveSolver (tunedOptions M t) concaveState0.x
      concaveOut.PRIMAL 0
      (T1 concaveSolver (concaveSolver.F concaveState0.x) 0 (evalG concaveSolver concaveState0.x))
      (DT1 concaveSolver 0 (evalG concaveSolver concaveState0.x)
        (concaveSolver.gradF concaveState0.x) concaveOut.PRIMAL)
      0 (Or.inl rfl)
      (by
        simp [armijo, T1_new, T1, DT1, feasviol, evalG, concaveSolver, solver1, vec1,
          defaultOptions, tunedOptions, inner_prod_one, concaveState0, concaveOut]
        norm_num)
      (by intro i hi; omega)
  simp at h
  exact h

theorem lineSearchOf_stopSolver (M : Int) (t : ℚ) :
    lineSearchOf stopSolver (tunedOptions M t) concaveState0 concaveOut
      = .ok (Dbl.fin 1, 0) := by
  unfold stopSolver
  rw [lineSearchOf_callback]
  exact lineSearchOf_concaveSolver M t

theorem qp_stopSolver :
    stopSolver.qp_solver (qpInput stopSolver concaveState0 (evalG stopSolver concaveState0.x)
      (evalJ stopSolver concaveState0.x) (stopSolver.gradF concaveState0.x)) = some concaveOut :=
  qp_concaveSolver

/-- Witness of C17: on `min -x²/2` from `x0 = -1` with an observer that always
replies `1`, the first pass ends with the stop requested by the user. -/
theorem C17_observer_early_stop_witness :
    (stopSolver.callback = some (fun _ => 1) ∧
      stopSolver.qp_solver (qpInput stopSolver concaveState0 (evalG stopSolver concaveState0.x)
        (evalJ stopSolver concaveState0.x) (stopSolver.gradF concaveState0.x))
        = some concaveOut ∧
      lineSearchOf stopSolver defaultOptions concaveState0 concaveOut = .ok (Dbl.fin 1, 0)) ∧
      iteration stopSolver defaultOptions concaveState0
        = .ok (.stop (steppedState stopSolver concaveState0 concaveOut (Dbl.fin 1)) .userStop) :=
  ⟨⟨rfl, qp_stopSolver, lineSearchOf_stopSolver 100 (1e-12)⟩,
    ((C17_observer_early_stop stopSolver defaultOptions concaveState0 (fun _ => 1) concaveOut
      (Dbl.fin 1) 0 rfl qp_stopSolver (lineSearchOf_stopSolver 100 (1e-12))).1
      (by simp)).1⟩

/-! ## The termination tests (claims C11, C12) -/

theorem normdxOf_concave (S : NLPSolver 1 0) (h : S.sqrt = exactSqrt) :
    normdxOf S concaveOut (Dbl.fin 1) = Dbl.fin 1 := by
  simp [normdxOf, norm_2, concaveOut, vec1, h, exactSqrt_one]

theorem steppedState_concave_x (S : NLPSolver 1 0) :
    (steppedState S concaveState0 concaveOut (Dbl.fin 1)).x = vec1 (-2) := by
  funext i
  simp [steppedState, concaveState0, concaveOut, vec1, vadd, vscale]
  norm_num

theorem afterLineSearch_no_stop {n m : ℕ} (S : NLPSolver n m) (o : Options) (s : State n m)
    (out : QPOutput n m) (alpha : Dbl) (lsiter : Int)
    (hno : stopRequested S s out alpha lsiter = false)
    (hH : o.hessian_approximation = "exact" → S.H ≠ none) :
    (normdxOf S out alpha < Dbl.fin o.toldx →
        afterLineSearch S o s out alpha lsiter
          = .ok (.stop (steppedState S s out alpha) .smallDx)) ∧
      (¬ (normdxOf S out alpha < Dbl.fin o.toldx) → normgradLOf S s out < Dbl.fin o.tolgl →
        afterLineSearch S o s out alpha lsiter
          = .ok (.stop (steppedState S s out alpha) .smallGradL)) ∧
      (¬ (normdxOf S out alpha < Dbl.fin o.toldx) →
        ¬ (normgradLOf S s out < Dbl.fin o.tolgl) → s.k + 1 ≥ o.maxiter →
        afterLineSearch S o s out alpha lsiter
          = .ok (.stop (reevaluatedState S s out alpha) .maxIter)) ∧
      (¬ (normdxOf S out alpha < Dbl.fin o.toldx) →
        ¬ (normgradLOf S s out < Dbl.fin o.tolgl) → ¬ (s.k + 1 ≥ o.maxiter) →
        ∃ Bk, afterLineSearch S o s out alpha lsiter
          = .ok (.next { reevaluatedState S s out alpha with Bk := Bk })) := by
  unfold afterLineSearch
  rw [hno]
  refine ⟨?_, ?_, ?_, ?_⟩
  · intro h1
    simp [h1]
  · intro h1 h2
    simp [h1, h2]
  · intro h1 h2 h3
    simp [h1, h2, h3]
  · intro h1 h2 h3
    have hU : ∃ Bk, updatedHessian S o s out alpha = .ok Bk := by
      unfold updatedHessian
      by_cases hE : o.hessian_approximation = "exact"
      · cases hS : S.H with
        | none => exact absurd hS (hH hE)
        | some H => simp [hE]
      · simp [hE]
    obtain ⟨Bk, hBk⟩ := hU
    refine ⟨Bk, ?_⟩
    simp [h1, h2, h3, hBk]

/-- Counterexample to C12: on `min -x²/2` from `x0 = -1` with `toldx = 10` and an
observer that replies `1`, the first pass has `normdx = 1 < toldx`, and the
main loop stops with the stop requested by the user, not with the small step. -/
theorem C12_observer_stops_before_tests :
    lineSearchOf stopSolver (tunedOptions 100 10) concaveState0 concaveOut
        = .ok (Dbl.fin 1, 0) ∧
      normdxOf stopSolver concaveOut (Dbl.fin 1) = Dbl.fin 1 ∧
      normdxOf stopSolver concaveOut (Dbl.fin 1) < Dbl.fin (tunedOptions 100 10).toldx ∧
      iteration stopSolver (tunedOptions 100 10) concaveState0
        = .ok (.stop (steppedState stopSolver concaveState0 concaveOut (Dbl.fin 1)) .userStop) ∧
      ¬ ∃ s1, iteration stopSolver (tunedOptions 100 10) concaveState0
        = .ok (.stop s1 .smallDx) := by
  have hls := lineSearchOf_stopSolver 100 10
  have hn : normdxOf stopSolver concaveOut (Dbl.fin 1) = Dbl.fin 1 :=
    normdxOf_concave stopSolver rfl
  have hit : iteration stopSolver (tunedOptions 100 10) concaveState0
      = .ok (.stop (steppedState stopSolver concaveState0 concaveOut (Dbl.fin 1)) .userStop) := by
    rw [iteration_eq_afterLineSearch _ _ _ _ _ _ qp_stopSolver hls]
    have hs : stopRequested stopSolver concaveState0 concaveOut (Dbl.fin 1) 0 = true := by
      simp [stopRequested, stopSolver, Dbl.toBool]
    unfold afterLineSearch
    rw [if_pos hs]
  refine ⟨hls, hn, ?_, hit, ?_⟩
  · rw [hn]
    simp [tunedOptions]
  · rintro ⟨s1, h1⟩
    rw [hit] at h1
    simp at h1

/-- C12, amended: in a pass where the observer is absent or replies zero, with
`normdx = ‖alpha p‖₂` and `normgradL = ‖grad_f(x) - Jg(x)ᵀ lambda_hat -
lambda_x_hat‖₂` at the `x` before the step, the main loop stops with the small
step if `normdx < toldx`; otherwise with the small gradient if
`normgradL < tolgl`; otherwise with the iteration limit if the counter
`k ≥ maxiter` (after its increment); and otherwise goes on to the next pass. -/
theorem C12_termination_decision {n m : ℕ} (S : NLPSolver n m) (o : Options) (s : State n m)
    (out : QPOutput n m) (alpha : Dbl) (lsiter : Int)
    (hqp : S.qp_solver (qpInput S s (evalG S s.x) (evalJ S s.x) (S.gradF s.x)) = some out)
    (hls : lineSearchOf S o s out = .ok (alpha, lsiter))
    (hno : stopRequested S s out alpha lsiter = false)
    (hH : o.hessian_approximation = "exact" → S.H ≠ none) :
    normdxOf S out alpha = norm_2 S.sqrt (vscale out.PRIMAL alpha) ∧
      normgradLOf S s out
        = norm_2 S.sqrt (vsub (vsub (S.gradF s.x)
            (JtLambda S (evalJ S s.x) out.DUAL_A)) out.DUAL_X) ∧
      (normdxOf S out alpha < Dbl.fin o.toldx →
        ∃ s1, iteration S o s = .ok (.stop s1 .smallDx)) ∧
      (¬ (normdxOf S out alpha < Dbl.fin o.toldx) → normgradLOf S s out < Dbl.fin o.tolgl →
        ∃ s1, iteration S o s = .ok (.stop s1 .smallGradL)) ∧
      (¬ (normdxOf S out alpha < Dbl.fin o.toldx) →
        ¬ (normgradLOf S s out < Dbl.fin o.tolgl) → s.k + 1 ≥ o.maxiter →
        ∃ s1, iteration S o s = .ok (.stop s1 .maxIter)) ∧
      (¬ (normdxOf S out alpha < Dbl.fin o.toldx) →
        ¬ (normgradLOf S s out < Dbl.fin o.tolgl) → ¬ (s.k + 1 ≥ o.maxiter) →
        ∃ s1, iteration S o s = .ok (.next s1) ∧ s1.k = s.k + 1) := by
  obtain ⟨h1, h2, h3, h4⟩ := afterLineSearch_no_stop S o s out alpha lsiter hno hH
  rw [iteration_eq_afterLineSearch S o s out alpha lsiter hqp hls]
  refine ⟨rfl, rfl, fun a => ⟨_, h1 a⟩, fun a b => ⟨_, h2 a b⟩, fun a b c => ⟨_, h3 a b c⟩, ?_⟩
  intro a b c
  obtain ⟨Bk, hBk⟩ := h4 a b c
  exact ⟨_, hBk, rfl⟩

/-- Witness of C12, amended: on `min -x²/2` from `x0 = -1` without observer and
with `toldx = 10`, the first pass has `normdx = 1` and stops with the small
step. -/
theorem C12_termination_decision_witness :
    (concaveSolver.qp_solver (qpInput concaveSolver concaveState0
          (evalG concaveSolver concaveState0.x) (evalJ concaveSolver concaveState0.x)
          (concaveSolver.gradF concaveState0.x)) = some concaveOut ∧
        lineSearchOf concaveSolver (tunedOptions 100 10) concaveState0 concaveOut
          = .ok (Dbl.fin 1, 0) ∧
        stopRequested concaveSolver concaveState0 concaveOut (Dbl.fin 1) 0 = false ∧
        normdxOf concaveSolver concaveOut (Dbl.fin 1) < Dbl.fin (tunedOptions 100 10).toldx) ∧
      ∃ s1, iteration concaveSolver (tunedOptions 100 10) concaveState0
        = .ok (.stop s1 .smallDx) :=
  have hlt : normdxOf concaveSolver concaveOut (Dbl.fin 1)
      < Dbl.fin (tunedOptions 100 10).toldx := by
    rw [normdxOf_concave concaveSolver rfl]
    simp [tunedOptions]
  ⟨⟨qp_concaveSolver, lineSearchOf_concaveSolver 100 10, rfl, hlt⟩,
    (C12_termination_decision concaveSolver (tunedOptions 100 10) concaveState0 concaveOut
      (Dbl.fin 1) 0 qp_concaveSolver (lineSearchOf_concaveSolver 100 10) rfl
      (by intro h; exact absurd h (by decide))).2.2.1 hlt⟩

theorem iteration_stop_fk {n m : ℕ} (S : NLPSolver n m) (o : Options) (s s1 : State n m)
    (r : StopReason) (h : iteration S o s = .ok (.stop s1 r)) :
    (r ≠ .maxIter → s1.fk = S.F s.x) ∧ (r = .maxIter → s1.fk = S.F s1.x) := by
  obtain ⟨out, alpha, lsiter, -, -, ha⟩ := iteration_ok_inv S o s _ h
  rcases afterLineSearch_stop_inv S o s out alpha lsiter s1 r ha with ⟨hr, hs⟩ | ⟨hr, hs⟩
  · exact ⟨fun _ => by rw [hs]; rfl, fun h2 => absurd h2 hr⟩
  · exact ⟨fun h2 => absurd hr h2, fun _ => by rw [hs]; rfl⟩

theorem initState_concaveSolver_tuned (M : Int) (t : ℚ) :
    initState concaveSolver (tunedOptions M t) = .ok concaveState0 := by
  simp [initState, initialHessian, concaveSolver, solver1, defaultOptions, tunedOptions,
    concaveState0]

theorem run_of_initState {n m : ℕ} (S : NLPSolver n m) (o : Options) (s0 : State n m)
    (hc : S.checkInitialBounds = true) (h0 : initState S o = .ok s0) :
    run S o 0 0 = mainLoop S o (o.maxiter.toNat + 1) s0 := by
  simp [run, hc, h0]

theorem iteration_concaveSolver_smallDx :
    iteration concaveSolver (tunedOptions 100 10) concaveState0
      = .ok (.stop (steppedState concaveSolver concaveState0 concaveOut (Dbl.fin 1)) .smallDx) := by
  rw [iteration_eq_afterLineSearch _ _ _ _ _ _ qp_concaveSolver
    (lineSearchOf_concaveSolver 100 10)]
  have hlt : normdxOf concaveSolver concaveOut (Dbl.fin 1)
      < Dbl.fin (tunedOptions 100 10).toldx := by
    rw [normdxOf_concave concaveSolver rfl]
    simp [tunedOptions]
  exact (afterLineSearch_no_stop concaveSolver (tunedOptions 100 10) concaveState0 concaveOut
    (Dbl.fin 1) 0 rfl (by intro h; exact absurd h (by decide))).1 hlt

/-- C11 (fails on the code): the cost reported with an iterate is the cost of
the iterate before the step.  Whenever the main loop stops for another reason
than the iteration limit, the final `fk` is `F` at the `x` on entry to the
pass, while the final `x` is already `x + dx`; the observer is given the same
pair.  On `min -x²/2` from `x0 = -1` with `toldx = 10` the first pass stops with
the small step, and `evaluate` returns `x_opt = -2` with `cost = -1/2`, where
`F(-2) = -2`. -/
theorem C11_cost_is_of_previous_iterate :
    (∀ {n m : ℕ} (S : NLPSolver n m) (o : Options) (s s1 : State n m) (r : StopReason),
        iteration S o s = .ok (.stop s1 r) →
        (r ≠ .maxIter → s1.fk = S.F s.x) ∧ (r = .maxIter → s1.fk = S.F s1.x)) ∧
      (∀ {n m : ℕ} (S : NLPSolver n m) (s : State n m) (out : QPOutput n m) (alpha : Dbl)
        (lsiter : Int),
        (observerInput S s out alpha lsiter).COST = S.F s.x ∧
        (observerInput S s out alpha lsiter).X_OPT = vadd s.x (vscale out.PRIMAL alpha)) ∧
      (∃ r, evaluate concaveSolver (tunedOptions 100 10) 0 0 = .ok r ∧
        r.X_OPT = vec1 (-2) ∧ r.COST = Dbl.fin (-1 / 2) ∧
        concaveSolver.F r.X_OPT = Dbl.fin (-2) ∧ r.COST ≠ concaveSolver.F r.X_OPT) := by
  refine ⟨fun S o s s1 r h => iteration_stop_fk S o s s1 r h,
    fun S s out alpha lsiter => ⟨rfl, rfl⟩, ?_⟩
  have hrun : run concaveSolver (tunedOptions 100 10) 0 0
      = .ok (steppedState concaveSolver concaveState0 concaveOut (Dbl.fin 1), .smallDx) := by
    rw [run_of_initState concaveSolver _ concaveState0 rfl (initState_concaveSolver_tuned 100 10)]
    exact mainLoop_stop _ _ _ _ _ iteration_concaveSolver_smallDx _
  have hx := steppedState_concave_x concaveSolver
  have hF : concaveSolver.F (vec1 (-2)) = Dbl.fin (-2) := by
    simp [concaveSolver, solver1, vec1]
    norm_num
  have hc : (steppedState concaveSolver concaveState0 concaveOut (Dbl.fin 1)).fk
      = Dbl.fin (-1 / 2) := by
    simp [steppedState, concaveSolver, solver1, concaveState0, vec1]
  refine ⟨_, by rw [evaluate, hrun], hx, hc, ?_, ?_⟩
  · show concaveSolver.F (steppedState concaveSolver concaveState0 concaveOut (Dbl.fin 1)).x = _
    rw [hx, hF]
  · show (steppedState concaveSolver concaveState0 concaveOut (Dbl.fin 1)).fk
      ≠ concaveSolver.F (steppedState concaveSolver concaveState0 concaveOut (Dbl.fin 1)).x
    rw [hx, hF, hc]
    simp
    norm_num

/-! ## Termination (claim C13) -/

theorem lineSearchLoop_ne_outOfFuel {n m : ℕ} (S : NLPSolver n m) (o : Options) (x p : Vec n)
    (mu T1v DT1v : Dbl) (fuel : ℕ) (alpha : Dbl) (lsiter : Int)
    (hfuel : (o.maxiter_ls - lsiter).toNat + 1 ≤ fuel) :
    lineSearchLoop S o x p mu T1v DT1v fuel alpha lsiter ≠ .error .outOfFuel := by
  induction fuel generalizing alpha lsiter with
  | zero => omega
  | succ fuel ih =>
    rw [lineSearchLoop]
    by_cases hA : armijo S o x p mu T1v DT1v alpha = true
    · simp [hA]
    · by_cases hM : lsiter + 1 ≥ o.maxiter_ls
      · simp [hA, hM]
      · simp only [hA, hM, if_false, Bool.false_eq_true]
        exact ih _ _ (by omega)

theorem lineSearch_ne_outOfFuel {n m : ℕ} (S : NLPSolver n m) (o : Options) (x p : Vec n)
    (mu T1v DT1v : Dbl) : lineSearch S o x p mu T1v DT1v ≠ .error .outOfFuel :=
  lineSearchLoop_ne_outOfFuel S o x p mu T1v DT1v _ _ _ (by omega)

theorem lineSearchLoop_ok_bound {n m : ℕ} (S : NLPSolver n m) (o : Options) (x p : Vec n)
    (mu T1v DT1v : Dbl) (fuel : ℕ) (alpha : Dbl) (lsiter : Int) (a : Dbl) (l : Int)
    (h : lineSearchLoop S o x p mu T1v DT1v fuel alpha lsiter = .ok (a, l)) :
    lsiter ≤ l ∧ (l = lsiter ∨ l < o.maxiter_ls) := by
  induction fuel generalizing alpha lsiter with
  | zero => simp [lineSearchLoop] at h
  | succ fuel ih =>
    rw [lineSearchLoop] at h
    by_cases hA : armijo S o x p mu T1v DT1v alpha = true
    · simp only [hA, if_true] at h
      injection h with h
      injection h with h1 h2
      exact ⟨by omega, Or.inl h2.symm⟩
    · simp only [hA] at h
      by_cases hM : lsiter + 1 ≥ o.maxiter_ls
      · simp [hM] at h
      · simp only [hM, if_false, Bool.false_eq_true] at h
        obtain ⟨h1, h2⟩ := ih _ _ h
        exact ⟨by omega, Or.inr (by omega)⟩

theorem iteration_ne_outOfFuel {n m : ℕ} (S : NLPSolver n m) (o : Options) (s : State n m) :
    iteration S o s ≠ .error .outOfFuel := by
  cases hqp : S.qp_solver (qpInput S s (evalG S s.x) (evalJ S s.x) (S.gradF s.x)) with
  | none =>
    unfold iteration
    simp [hqp]
  | some out =>
    cases hls : lineSearchOf S o s out with
    | error e =>
      rw [iteration_lineSearch_error S o s out e hqp hls]
      intro h
      injection h with h
      rw [h] at hls
      exact lineSearch_ne_outOfFuel S o _ _ _ _ _ hls
    | ok al =>
      obtain ⟨alpha, lsiter⟩ := al
      rw [iteration_eq_afterLineSearch S o s out alpha lsiter hqp hls]
      unfold afterLineSearch
      split_ifs
      · simp
      · simp
      · simp
      · simp
      · unfold updatedHessian
        by_cases hE : o.hessian_approximation = "exact"
        · cases hS : S.H <;> simp [hE]
        · simp [hE]

theorem iteration_next_k {n m : ℕ} (S : NLPSolver n m) (o : Options) (s s1 : State n m)
    (h : iteration S o s = .ok (.next s1)) : s1.k = s.k + 1 ∧ s.k + 1 < o.maxiter := by
  obtain ⟨out, alpha, lsiter, Bk, -, -, hk, hs⟩ := iteration_next_inv S o s s1 h
  rw [hs]
  exact ⟨rfl, by omega⟩

theorem mainLoop_ne_outOfFuel {n m : ℕ} (S : NLPSolver n m) (o : Options) (fuel : ℕ)
    (s : State n m) (hfuel : max 1 (o.maxiter - s.k).toNat ≤ fuel) :
    mainLoop S o fuel s ≠ .error .outOfFuel := by
  induction fuel generalizing s with
  | zero => omega
  | succ fuel ih =>
    rw [mainLoop]
    cases hit : iteration S o s with
    | error e =>
      intro h
      injection h with h
      rw [h] at hit
      exact iteration_ne_outOfFuel S o s hit
    | ok r =>
      cases r with
      | stop s1 r => simp
      | next s1 =>
        obtain ⟨h1, h2⟩ := iteration_next_k S o s s1 hit
        exact ih s1 (by omega)

theorem mainLoopPasses_le {n m : ℕ} (S : NLPSolver n m) (o : Options) (fuel : ℕ)
    (s : State n m) : mainLoopPasses S o fuel s ≤ max 1 (o.maxiter - s.k).toNat := by
  induction fuel generalizing s with
  | zero => simp [mainLoopPasses]
  | succ fuel ih =>
    rw [mainLoopPasses]
    cases hit : iteration S o s with
    | error e => simp
    | ok r =>
      cases r with
      | stop s1 r => simp
      | next s1 =>
        obtain ⟨h1, h2⟩ := iteration_next_k S o s s1 hit
        have := ih s1
        simp only
        omega

theorem normgradLOf_concave : normgradLOf concaveSolver concaveState0 concaveOut = Dbl.fin 1 := by
  have hg : gradLOf concaveSolver concaveState0 concaveOut = vec1 1 := by
    funext i
    simp [gradLOf, concaveSolver, solver1, concaveState0, concaveOut, vec1, JtLambda, vsub]
  have hs : concaveSolver.sqrt = exactSqrt := rfl
  simp [normgradLOf, norm_2, hg, hs, vec1, exactSqrt_one]

theorem iteration_concaveSolver_maxIter :
    iteration concaveSolver (tunedOptions 0 (1e-12)) concaveState0
      = .ok (.stop (reevaluatedState concaveSolver concaveState0 concaveOut (Dbl.fin 1))
          .maxIter) := by
  rw [iteration_eq_afterLineSearch _ _ _ _ _ _ qp_concaveSolver
    (lineSearchOf_concaveSolver 0 (1e-12))]
  refine (afterLineSearch_no_stop concaveSolver (tunedOptions 0 (1e-12)) concaveState0
    concaveOut (Dbl.fin 1) 0 rfl (by intro h; exact absurd h (by decide))).2.2.1 ?_ ?_ ?_
  · rw [normdxOf_concave concaveSolver rfl]
    simp [tunedOptions]
    norm_num
  · rw [normgradLOf_concave]
    simp [tunedOptions, defaultOptions]
    norm_num
  · decide

theorem initState_ne_outOfFuel {n m : ℕ} (S : NLPSolver n m) (o : Options) :
    initState S o ≠ .error .outOfFuel := by
  unfold initState initialHessian
  by_cases hE : o.hessian_approximation = "exact"
  · cases hS : S.H <;> simp [hE]
  · simp [hE]

/-- Counterexample to C13: with the option `maxiter = 0`, on `min -x²/2` from
`x0 = -1`, `evaluate` makes one pass through the main loop (one QP solve) and
stops at the iteration limit with `k = 1`: more than `maxiter` iterations. -/
theorem C13_zero_maxiter_runs_once :
    (tunedOptions 0 (1e-12)).maxiter = 0 ∧
      evaluatePasses concaveSolver (tunedOptions 0 (1e-12)) 0 0 = 1 ∧
      run concaveSolver (tunedOptions 0 (1e-12)) 0 0
        = .ok (reevaluatedState concaveSolver concaveState0 concaveOut (Dbl.fin 1), .maxIter) ∧
      (reevaluatedState concaveSolver concaveState0 concaveOut (Dbl.fin 1)).k = 1 ∧
      ¬ ((evaluatePasses concaveSolver (tunedOptions 0 (1e-12)) 0 0 : Int)
          ≤ (tunedOptions 0 (1e-12)).maxiter) := by
  have hp : evaluatePasses concaveSolver (tunedOptions 0 (1e-12)) 0 0 = 1 := by
    have hc : concaveSolver.checkInitialBounds = true := rfl
    have hm : (tunedOptions 0 (1e-12)).maxiter.toNat + 1 = 0 + 1 := rfl
    simp only [evaluatePasses, hc, initState_concaveSolver_tuned, hm, mainLoopPasses,
      iteration_concaveSolver_maxIter]
    simp
  refine ⟨rfl, hp, ?_, rfl, ?_⟩
  · rw [run_of_initState concaveSolver _ concaveState0 rfl
      (initState_concaveSolver_tuned 0 (1e-12))]
    exact mainLoop_stop _ _ _ _ _ iteration_concaveSolver_maxIter _
  · rw [hp]
    decide

/-- C13, amended: for every option setting and every problem, `evaluate` makes
at most `max(1, maxiter)` passes through the main loop (QP solves), the body
being run once before `maxiter` is first tested; a line search that succeeds
has made at most `max(0, maxiter_ls - 1)` backtracks; and neither loop exhausts
its bound, so `evaluate` always ends, by a return or by a fatal error. -/
theorem C13_iteration_limit {n m : ℕ} (S : NLPSolver n m) (o : Options) :
    (∀ nfdir nadir, (evaluatePasses S o nfdir nadir : Int) ≤ max 1 o.maxiter) ∧
      (∀ nfdir nadir, run S o nfdir nadir ≠ .error .outOfFuel ∧
        evaluate S o nfdir nadir ≠ .error .outOfFuel) ∧
      (∀ (x p : Vec n) (mu T1v DT1v : Dbl),
        lineSearch S o x p mu T1v DT1v ≠ .error .outOfFuel ∧
        ∀ alpha lsiter, lineSearch S o x p mu T1v DT1v = .ok (alpha, lsiter) →
          0 ≤ lsiter ∧ lsiter ≤ max 0 (o.maxiter_ls - 1)) := by
  refine ⟨?_, ?_, ?_⟩
  · intro nfdir nadir
    unfold evaluatePasses
    by_cases h1 : nfdir = 0 ∧ nadir = 0
    · by_cases h2 : S.checkInitialBounds = true
      · rw [if_neg (not_not.mpr h1), if_neg (not_not.mpr h2)]
        cases h0 : initState S o with
        | error e => simp
        | ok s0 =>
          have hk := (initState_merit_mu S o s0 h0).2
          have := mainLoopPasses_le S o (o.maxiter.toNat + 1) s0
          rw [hk] at this
          simp only
          omega
      · simp [h1, h2]
    · simp [h1]
  · intro nfdir nadir
    have hrun : run S o nfdir nadir ≠ .error .outOfFuel := by
      unfold run
      by_cases h1 : nfdir = 0 ∧ nadir = 0
      · by_cases h2 : S.checkInitialBounds = true
        · rw [if_neg (not_not.mpr h1), if_neg (not_not.mpr h2)]
          cases h0 : initState S o with
          | error e =>
            simp only
            intro h
            injection h with h
            rw [h] at h0
            exact initState_ne_outOfFuel S o h0
          | ok s0 =>
            have hk := (initState_merit_mu S o s0 h0).2
            exact mainLoop_ne_outOfFuel S o _ s0 (by rw [hk]; omega)
        · simp [h1, h2]
      · simp [h1]
    refine ⟨hrun, ?_⟩
    unfold evaluate
    cases hr : run S o nfdir nadir with
    | error e =>
      intro h
      injection h with h
      rw [h] at hr
      exact hrun hr
    | ok r => simp
  · intro x p mu T1v DT1v
    refine ⟨lineSearch_ne_outOfFuel S o x p mu T1v DT1v, ?_⟩
    intro alpha lsiter h
    have := lineSearchLoop_ok_bound S o x p mu T1v DT1v _ _ _ _ _ h
    omega

/-! ## The variable bounds (claim C20) -/

theorem eye_toMat (n : ℕ) : eye n = toMat (fun i j => if i = j then 1 else 0) := by
  funext i j
  by_cases h : i = j <;> simp [eye, toMat, h]

theorem zero_div_cases (d : Dbl) : Dbl.fin 0 / d = Dbl.fin 0 ∨ Dbl.fin 0 / d = Dbl.nan := by
  cases d with
  | fin b =>
    by_cases hb : b = 0
    · right
      simp [hb, Dbl.infTimes]
    · left
      simp [hb]
  | pinf => left; rfl
  | ninf => left; rfl
  | nan => right; rfl

theorem nan_div (d : Dbl) : Dbl.nan / d = Dbl.nan := by
  cases d <;> rfl

theorem muUpdate_zero_of (o : Options) (x : Dbl) (h : x = Dbl.fin 0 ∨ x = Dbl.nan) :
    muUpdate o 0 x = 0 := by
  rcases h with h | h <;> simp [muUpdate, h]

theorem zeroVec_eq (n : ℕ) : (fun _ : Fin n => (0 : Dbl)) = toVec (fun _ => 0) := rfl

theorem feasviol_finite {n m : ℕ} (S : NLPSolver n m) (c : Fin m → ℚ) :
    ∃ v : ℚ, feasviol S (toVec c) = Dbl.fin v := by
  unfold feasviol
  cases S.GJ with
  | none => exact ⟨0, rfl⟩
  | some _ => exact ⟨_, by rw [fabs_toVec, sumRows_toVec]⟩

theorem muOf_zero_step {n m : ℕ} (S : NLPSolver n m) (o : Options) (s : State n m)
    (out : QPOutput n m) (g : Fin n → ℚ) (A : Fin n → Fin n → ℚ)
    (hmu : s.merit_mu = 0) (hB : s.Bk = toMat A) (hg : S.gradF s.x = toVec g)
    (hp : out.PRIMAL = fun _ => 0) : muOf S o s out = 0 := by
  unfold muOf meritMu
  rw [hmu]
  apply muUpdate_zero_of
  unfold mu_lb
  rw [hp, hB, hg, zeroVec_eq]
  have hnum : inner_prod (toVec g) (toVec fun _ => 0)
      + Dbl.fin o.sigma / Dbl.fin 2.0
        * inner_prod (toVec fun _ : Fin n => (0 : ℚ)) (mul (toMat A) (toVec fun _ => 0))
      = Dbl.fin 0 := by
    have h2 : ((2.0 : ℚ) = 0) = False := by norm_num
    simp [h2]
  rw [hnum]
  rcases zero_div_cases (1 - Dbl.fin o.rho) with h1 | h1
  · rw [h1]
    exact zero_div_cases _
  · rw [h1, nan_div]
    exact Or.inr rfl

theorem lineSearchOf_zero_step {n m : ℕ} (S : NLPSolver n m) (o : Options) (s : State n m)
    (out : QPOutput n m) (f : ℚ) (g : Fin n → ℚ) (c : Fin m → ℚ) (A : Fin n → Fin n → ℚ)
    (hmu : s.merit_mu = 0) (hB : s.Bk = toMat A) (hF : S.F s.x = Dbl.fin f)
    (hg : S.gradF s.x = toVec g) (hG : evalG S s.x = toVec c)
    (hp : out.PRIMAL = fun _ => 0) :
    lineSearchOf S o s out = .ok (Dbl.fin 1, 0) := by
  have hmu0 := muOf_zero_step S o s out g A hmu hB hg hp
  unfold lineSearchOf
  rw [hmu0]
  have hx : vadd s.x (smul (Dbl.fin 1) out.PRIMAL) = s.x := by
    funext i
    simp [vadd, smul, hp]
  have hT1 : T1 S (S.F s.x) 0 (evalG S s.x) = Dbl.fin f := by
    obtain ⟨v, hv⟩ := feasviol_finite S c
    simp [T1, hF, hG, hv]
  have hDT1 : DT1 S 0 (evalG S s.x) (S.gradF s.x) out.PRIMAL = Dbl.fin 0 := by
    unfold DT1
    rw [hg, hp, hG, zeroVec_eq]
    cases S.GJ <;> simp
  have hT1n : T1_new S s.x out.PRIMAL 0 (Dbl.fin 1) = Dbl.fin f := by
    unfold T1_new
    simp only [hx, hF]
    cases hGJ : S.GJ with
    | none => simp
    | some cc =>
      have : cc.G s.x = toVec c := by
        rw [← hG]
        unfold evalG
        rw [hGJ]
      simp [this]
  have h := lineSearch_ok_of_first S o s.x out.PRIMAL 0
    (T1 S (S.F s.x) 0 (evalG S s.x)) (DT1 S 0 (evalG S s.x) (S.gradF s.x) out.PRIMAL)
    0 (Or.inl rfl)
    (by
      unfold armijo
      rw [pow_zero, hT1n, hT1, hDT1]
      simp)
    (by intro i hi; omega)
  simpa using h

theorem normdxOf_zero_step {n m : ℕ} (S : NLPSolver n m) (out : QPOutput n m)
    (hsqrt : S.sqrt 0 = 0) (hp : out.PRIMAL = fun _ => 0) :
    normdxOf S out (Dbl.fin 1) = 0 := by
  have hv : vscale out.PRIMAL (Dbl.fin 1) = toVec (fun _ => 0) := by
    funext i
    simp [vscale, hp]
  unfold normdxOf norm_2
  rw [hv, inner_prod_toVec]
  simp only [mul_zero, Finset.sum_const_zero]
  exact hsqrt

theorem steppedState_zero_step {n m : ℕ} (S : NLPSolver n m) (s : State n m)
    (out : QPOutput n m) (hp : out.PRIMAL = fun _ => 0) :
    (steppedState S s out (Dbl.fin 1)).x = s.x ∧
      (steppedState S s out (Dbl.fin 1)).fk = S.F s.x ∧
      (steppedState S s out (Dbl.fin 1)).k = s.k + 1 := by
  refine ⟨?_, rfl, rfl⟩
  funext i
  simp [steppedState, vadd, vscale, hp]

/-- Counterexample to C14: on `min x²` from the minimiser `x0 = 0`, with the
default `toldx > 0` and an observer that replies `1`, the QP step is `p = 0`
and `normdx = 0 < toldx`, but `evaluate` ends after its one pass with the stop
requested by the user, not with the small step. -/
theorem C14_observer_stops_at_optimum :
    0 < defaultOptions.toldx ∧
      initState optimumStopSolver defaultOptions = .ok optimumState0 ∧
      optimumStopSolver.qp_solver (qpInput optimumStopSolver optimumState0
        (evalG optimumStopSolver optimumState0.x) (evalJ optimumStopSolver optimumState0.x)
        (optimumStopSolver.gradF optimumState0.x)) = some zeroOut ∧
      zeroOut.PRIMAL = (fun _ => 0) ∧
      lineSearchOf optimumStopSolver defaultOptions optimumState0 zeroOut
        = .ok (Dbl.fin 1, 0) ∧
      normdxOf optimumStopSolver zeroOut (Dbl.fin 1) = 0 ∧
      run optimumStopSolver defaultOptions 0 0
        = .ok (steppedState optimumStopSolver optimumState0 zeroOut (Dbl.fin 1), .userStop) ∧
      ¬ ∃ s1, run optimumStopSolver defaultOptions 0 0 = .ok (s1, .smallDx) := by
  have h0 : initState optimumStopSolver defaultOptions = .ok optimumState0 := by
    simp [initState, initialHessian, optimumStopSolver, optimumSolver, solver1, defaultOptions,
      optimumState0]
  have hqp : optimumStopSolver.qp_solver (qpInput optimumStopSolver optimumState0
        (evalG optimumStopSolver optimumState0.x) (evalJ optimumStopSolver optimumState0.x)
        (optimumStopSolver.gradF optimumState0.x)) = some zeroOut := by
    simp [optimumStopSolver, optimumSolver, solver1, qpSolver1, qpInput, optimumState0, vec1,
      eye, zeroOut]
  have hls : lineSearchOf optimumStopSolver defaultOptions optimumState0 zeroOut
      = .ok (Dbl.fin 1, 0) :=
    lineSearchOf_zero_step optimumStopSolver defaultOptions optimumState0 zeroOut 0
      (fun _ => 0) (fun _ => 0) _ rfl (eye_toMat 1)
      (by simp [optimumStopSolver, optimumSolver, solver1, optimumState0, vec1])
      (by
        funext i
        simp [optimumStopSolver, optimumSolver, solver1, optimumState0, vec1])
      rfl rfl
  have hit : iteration optimumStopSolver defaultOptions optimumState0
      = .ok (.stop (steppedState optimumStopSolver optimumState0 zeroOut (Dbl.fin 1))
          .userStop) := by
    rw [iteration_eq_afterLineSearch _ _ _ _ _ _ hqp hls]
    have hs : stopRequested optimumStopSolver optimumState0 zeroOut (Dbl.fin 1) 0 = true := by
      simp [stopRequested, optimumStopSolver, Dbl.toBool]
    unfold afterLineSearch
    rw [if_pos hs]
  have hrun : run optimumStopSolver defaultOptions 0 0
      = .ok (steppedState optimumStopSolver optimumState0 zeroOut (Dbl.fin 1), .userStop) := by
    rw [run_of_initState optimumStopSolver _ optimumState0 rfl h0]
    exact mainLoop_stop _ _ _ _ _ hit _
  refine ⟨by norm_num [defaultOptions], h0, hqp, rfl, hls,
    normdxOf_zero_step optimumStopSolver zeroOut
      (by
        show exactSqrt (Dbl.fin 0) = Dbl.fin 0
        have h := Rat.sqrt_eq 0
        rw [mul_zero, abs_zero] at h
        simp [exactSqrt, h])
      rfl, hrun, ?_⟩
  rintro ⟨s1, h1⟩
  rw [hrun] at h1
  simp at h1

/-- C14, amended: for `toldx > 0`, if the objective, its gradient and the
constraints are finite at the start point, the QP subproblem returns the zero
step `p = 0` there, and the observer is absent or replies zero, then the line
search accepts `alpha = 1` with zero backtracks, and `evaluate` ends after
exactly one pass with `normdx = 0 < toldx` (small step), returning
`x_opt = x0` and `cost = f(x0)`. -/
theorem C14_zero_step_at_start {n m : ℕ} (S : NLPSolver n m) (o : Options) (s0 : State n m)
    (out : QPOutput n m) (f : ℚ) (g : Fin n → ℚ) (c : Fin m → ℚ)
    (htol : 0 < o.toldx) (hcheck : S.checkInitialBounds = true)
    (h0 : initState S o = .ok s0)
    (hF : S.F S.X_INIT = Dbl.fin f) (hg : S.gradF S.X_INIT = toVec g)
    (hG : evalG S S.X_INIT = toVec c) (hsqrt : S.sqrt 0 = 0)
    (hqp : S.qp_solver (qpInput S s0 (evalG S s0.x) (evalJ S s0.x) (S.gradF s0.x)) = some out)
    (hp : out.PRIMAL = fun _ => 0)
    (hno : stopRequested S s0 out (Dbl.fin 1) 0 = false) :
    lineSearchOf S o s0 out = .ok (Dbl.fin 1, 0) ∧
      normdxOf S out (Dbl.fin 1) = 0 ∧
      normdxOf S out (Dbl.fin 1) < Dbl.fin o.toldx ∧
      (∃ s1, run S o 0 0 = .ok (s1, .smallDx) ∧ s1.k = 1 ∧ s1.x = S.X_INIT ∧
        s1.fk = S.F S.X_INIT) ∧
      evaluatePasses S o 0 0 = 1 ∧
      evaluate S o 0 0 = .ok { COST := S.F S.X_INIT, X_OPT := S.X_INIT } := by
  obtain ⟨hBk, hx⟩ := initState_Bk S o s0 h0
  obtain ⟨hmu, hk⟩ := initState_merit_mu S o s0 h0
  have hls : lineSearchOf S o s0 out = .ok (Dbl.fin 1, 0) :=
    lineSearchOf_zero_step S o s0 out f g c _ hmu (by rw [hBk]; exact eye_toMat n)
      (by rw [hx]; exact hF)
      (by rw [hx]; exact hg) (by rw [hx]; exact hG) hp
  have hn := normdxOf_zero_step S out hsqrt hp
  have hlt : normdxOf S out (Dbl.fin 1) < Dbl.fin o.toldx := by
    rw [hn]
    simpa using htol
  have hit : iteration S o s0 = .ok (.stop (steppedState S s0 out (Dbl.fin 1)) .smallDx) := by
    rw [iteration_eq_afterLineSearch S o s0 out _ _ hqp hls]
    unfold afterLineSearch
    rw [hno]
    simp [hlt]
  obtain ⟨h1, h2, h3⟩ := steppedState_zero_step S s0 out hp
  have hrun : run S o 0 0 = .ok (steppedState S s0 out (Dbl.fin 1), .smallDx) := by
    rw [run_of_initState S o s0 hcheck h0]
    exact mainLoop_stop _ _ _ _ _ hit _
  refine ⟨hls, hn, hlt, ⟨_, hrun, by rw [h3, hk]; rfl, by rw [h1, hx], by rw [h2, hx]⟩, ?_, ?_⟩
  · unfold evaluatePasses
    rw [if_neg (not_not.mpr ⟨rfl, rfl⟩), if_neg (not_not.mpr hcheck), h0]
    simp only
    rw [mainLoopPasses, hit]
  · unfold evaluate
    rw [hrun]
    simp only
    rw [h1, h2, hx]

/-- Witness of C14, amended: `min x²` from the minimiser `x0 = 0` with the
default options and no observer. -/
theorem C14_zero_step_at_start_witness :
    (0 < defaultOptions.toldx ∧ initState optimumSolver defaultOptions = .ok optimumState0 ∧
      zeroOut.PRIMAL = (fun _ => 0) ∧ optimumSolver.callback = none) ∧
      evaluate optimumSolver defaultOptions 0 0
        = .ok { COST := optimumSolver.F optimumSolver.X_INIT, X_OPT := optimumSolver.X_INIT } :=
  have h0 : initState optimumSolver defaultOptions = .ok optimumState0 := by
    simp [initState, initialHessian, optimumSolver, solver1, defaultOptions, optimumState0]
  ⟨⟨by norm_num [defaultOptions], h0, rfl, rfl⟩,
    (C14_zero_step_at_start optimumSolver defaultOptions optimumState0 zeroOut 0 (fun _ => 0)
      (fun _ => 0) (by norm_num [defaultOptions]) rfl h0
      (by simp [optimumSolver, solver1, vec1])
      (by
        funext i
        simp [optimumSolver, solver1, vec1])
      rfl
      (by
        show exactSqrt (Dbl.fin 0) = Dbl.fin 0
        have h := Rat.sqrt_eq 0
        rw [mul_zero, abs_zero] at h
        simp [exactSqrt, h])
      (by
        simp [optimumSolver, solver1, qpSolver1, qpInput, optimumState0, vec1, eye, zeroOut])
      rfl rfl).2.2.2.2.2⟩

/-! ## Convex quadratics (claim C16) -/

theorem updatedHessian_bfgs {n m : ℕ} (S : NLPSolver n m) (o : Options) (s : State n m)
    (out : QPOutput n m) (alpha : Dbl) (hB : o.hessian_approximation = "BFGS") :
    updatedHessian S o s out alpha
      = .ok (bfgsUpdate s.Bk (vscale out.PRIMAL alpha) (ykOf S s out alpha)) := by
  have hE : ¬ ("BFGS" = "exact") := by decide
  unfold updatedHessian
  simp only [hB, hE, if_false, if_true]

theorem afterLineSearch_next_bfgs {n m : ℕ} (S : NLPSolver n m) (o : Options) (s : State n m)
    (out : QPOutput n m) (alpha : Dbl) (lsiter : Int)
    (hB : o.hessian_approximation = "BFGS")
    (hno : stopRequested S s out alpha lsiter = false)
    (h1 : ¬ (normdxOf S out alpha < Dbl.fin o.toldx))
    (h2 : ¬ (normgradLOf S s out < Dbl.fin o.tolgl))
    (h3 : ¬ (s.k + 1 ≥ o.maxiter)) :
    afterLineSearch S o s out alpha lsiter
      = .ok (.next { reevaluatedState S s out alpha with
          Bk := bfgsUpdate s.Bk (vscale out.PRIMAL alpha) (ykOf S s out alpha) }) := by
  unfold afterLineSearch
  rw [hno, updatedHessian_bfgs S o s out alpha hB]
  simp [h1, h2, h3]

theorem muUpdate_zero_of_nonpos (o : Options) (a : ℚ) (ha : a ≤ 0) :
    muUpdate o 0 (Dbl.fin a / Dbl.fin 0) = 0 := by
  by_cases h : a = 0
  · subst h
    simp [muUpdate, Dbl.infTimes]
  · have hn : ¬ (0 < a) := not_lt.mpr ha
    have hlt : ¬ (Dbl.fin 0 < Dbl.ninf) := by decide
    simp [muUpdate, h, hn, hlt, Dbl.infTimes]

theorem gridSqrt_resolves : SqrtResolves gridSqrt := by
  refine ⟨by simp [gridSqrt], ?_⟩
  intro q hq
  have hq0 : ¬ (q < 0) := by
    have : (0 : ℚ) < 1e-24 := by norm_num
    linarith
  have h1 : (1 : ℚ) ≤ q * 10 ^ 24 := by
    have : (1e-24 : ℚ) * 10 ^ 24 = 1 := by norm_num
    nlinarith
  have h2 : 1 ≤ ⌊q * 10 ^ 24⌋₊ := Nat.le_floor (by simpa using h1)
  have h3 : 1 ≤ Nat.sqrt ⌊q * 10 ^ 24⌋₊ := Nat.sqrt_pos.mpr h2
  have h4 : (1 : ℚ) ≤ (Nat.sqrt ⌊q * 10 ^ 24⌋₊ : ℚ) := by exact_mod_cast h3
  simp only [gridSqrt, hq0, if_false, Dbl.fin_lt_fin, not_lt]
  rw [le_div_iff₀ (by norm_num)]
  have h5 : (1e-12 : ℚ) * 10 ^ 12 = 1 := by norm_num
  rw [h5]
  exact h4

theorem vec2_apply_zero (a b : ℚ) : vec2 a b 0 = Dbl.fin a := rfl
theorem vec2_apply_one (a b : ℚ) : vec2 a b 1 = Dbl.fin b := rfl

theorem vec2_ext (v : Vec 2) (a b : ℚ) (h0 : v 0 = Dbl.fin a) (h1 : v 1 = Dbl.fin b) :
    v = vec2 a b := by
  funext i
  fin_cases i
  · exact h0
  · exact h1

theorem initState_scenarioOne (sqrt : Dbl → Dbl) :
    initState (scenarioOne sqrt) defaultOptions = .ok scenarioState0 := by
  simp [initState, initialHessian, scenarioOne, defaultOptions, scenarioState0]

theorem qp_scenarioOne0 (sqrt : Dbl → Dbl) :
    (scenarioOne sqrt).qp_solver (qpInput (scenarioOne sqrt) scenarioState0
      (evalG (scenarioOne sqrt) scenarioState0.x) (evalJ (scenarioOne sqrt) scenarioState0.x)
      ((scenarioOne sqrt).gradF scenarioState0.x)) = some (stepOut2 2 4) := by
  simp [scenarioOne, qpSolver2, qpInput, scenarioState0, vec2, eye, stepOut2]
  funext i
  fin_cases i
  · simp
  · simp
    norm_num

theorem cons_fin_eq_toVec (a b : ℚ) : (![Dbl.fin a, Dbl.fin b] : Vec 2) = toVec ![a, b] := by
  funext i
  fin_cases i <;> rfl

theorem scenarioOne_F (sqrt : Dbl → Dbl) (a b : ℚ) :
    (scenarioOne sqrt).F (vec2 a b) = Dbl.fin ((a - 1) * (a - 1) + (b - 2) * (b - 2)) := by
  simp [scenarioOne, vec2]

theorem scenarioOne_gradF (sqrt : Dbl → Dbl) (a b : ℚ) :
    (scenarioOne sqrt).gradF (vec2 a b) = vec2 (2 * (a - 1)) (2 * (b - 2)) := by
  simp [scenarioOne, vec2, cons_fin_eq_toVec]

theorem inner_prod_vec2 (a b c d : ℚ) :
    inner_prod (vec2 a b) (vec2 c d) = Dbl.fin (a * c + b * d) := by
  simp [vec2, Fin.sum_univ_two]

theorem mul_mat2_vec2 (a b c d p q : ℚ) :
    mul (mat2 a b c d) (vec2 p q) = vec2 (a * p + b * q) (c * p + d * q) := by
  apply vec2_ext <;> simp [mat2, vec2, Fin.sum_univ_two]

theorem vadd_vec2 (a b c d : ℚ) : vadd (vec2 a b) (vec2 c d) = vec2 (a + c) (b + d) := by
  apply vec2_ext <;> simp [vec2, vadd]

theorem vsub_vec2 (a b c d : ℚ) : vsub (vec2 a b) (vec2 c d) = vec2 (a - c) (b - d) := by
  apply vec2_ext <;> simp [vec2, vsub]

theorem vscale_vec2 (a b c : ℚ) : vscale (vec2 a b) (Dbl.fin c) = vec2 (a * c) (b * c) := by
  apply vec2_ext <;> simp [vec2, vscale]

theorem smul_vec2 (a b c : ℚ) : smul (Dbl.fin c) (vec2 a b) = vec2 (c * a) (c * b) := by
  apply vec2_ext <;> simp [vec2, smul]

theorem eye_two : eye 2 = mat2 1 0 0 1 := by
  funext i j
  fin_cases i <;> fin_cases j <;> simp [eye, mat2]

theorem feasviol_scenarioOne (sqrt : Dbl → Dbl) (gk : Vec 0) :
    feasviol (scenarioOne sqrt) gk = Dbl.fin 0 := rfl

theorem muOf_scenarioOne (sqrt : Dbl → Dbl) (s : State 2 0) (a b B11 B12 B21 B22 p1 p2 : ℚ)
    (hx : s.x = vec2 a b) (hB : s.Bk = mat2 B11 B12 B21 B22) (hmu : s.merit_mu = 0)
    (hneg : (2 * (a - 1)) * p1 + (2 * (b - 2)) * p2
      + 1 / 2 * (p1 * (B11 * p1 + B12 * p2) + p2 * (B21 * p1 + B22 * p2)) ≤ 0) :
    muOf (scenarioOne sqrt) defaultOptions s (stepOut2 p1 p2) = 0 := by
  unfold muOf meritMu mu_lb
  rw [hx, hB, hmu, scenarioOne_gradF, feasviol_scenarioOne]
  have hp : (stepOut2 p1 p2).PRIMAL = vec2 p1 p2 := rfl
  rw [hp, mul_mat2_vec2, inner_prod_vec2, inner_prod_vec2]
  have hnum : (Dbl.fin (2 * (a - 1) * p1 + 2 * (b - 2) * p2)
      + Dbl.fin defaultOptions.sigma / Dbl.fin 2.0
        * Dbl.fin (p1 * (B11 * p1 + B12 * p2) + p2 * (B21 * p1 + B22 * p2)))
      / (1 - Dbl.fin defaultOptions.rho)
      = Dbl.fin (2 * ((2 * (a - 1)) * p1 + (2 * (b - 2)) * p2
      + 1 / 2 * (p1 * (B11 * p1 + B12 * p2) + p2 * (B21 * p1 + B22 * p2)))) := by
    have h2 : ((2.0 : ℚ) = 0) = False := by norm_num
    have h3 : ((1 : ℚ) - 0.5 = 0) = False := by norm_num
    simp [defaultOptions, h2, h3]
    ring
  rw [hnum]
  exact muUpdate_zero_of_nonpos _ _ (by linarith)

theorem armijo_scenarioOne (sqrt : Dbl → Dbl) (a b p1 p2 al : ℚ) :
    armijo (scenarioOne sqrt) defaultOptions (vec2 a b) (vec2 p1 p2) 0
      (T1 (scenarioOne sqrt) ((scenarioOne sqrt).F (vec2 a b)) 0
        (evalG (scenarioOne sqrt) (vec2 a b)))
      (DT1 (scenarioOne sqrt) 0 (evalG (scenarioOne sqrt) (vec2 a b))
        ((scenarioOne sqrt).gradF (vec2 a b)) (vec2 p1 p2)) (Dbl.fin al)
      = decide ((a + al * p1 - 1) * (a + al * p1 - 1) + (b + al * p2 - 2) * (b + al * p2 - 2)
          ≤ (a - 1) * (a - 1) + (b - 2) * (b - 2)
            + 0.0001 * al * (2 * (a - 1) * p1 + 2 * (b - 2) * p2)) := by
  have hGJ : (scenarioOne sqrt).GJ = none := rfl
  unfold armijo T1_new T1 DT1
  simp only [hGJ, feasviol_scenarioOne, scenarioOne_gradF, scenarioOne_F, smul_vec2, vadd_vec2,
    inner_prod_vec2]
  simp [defaultOptions]

theorem lineSearchOf_scenarioOne (sqrt : Dbl → Dbl) (s : State 2 0)
    (a b B11 B12 B21 B22 p1 p2 : ℚ) (j : ℕ)
    (hx : s.x = vec2 a b) (hB : s.Bk = mat2 B11 B12 B21 B22) (hmu : s.merit_mu = 0)
    (hneg : (2 * (a - 1)) * p1 + (2 * (b - 2)) * p2
      + 1 / 2 * (p1 * (B11 * p1 + B12 * p2) + p2 * (B21 * p1 + B22 * p2)) ≤ 0)
    (hj : j = 0 ∨ j = 1)
    (hpass : (a + (1 / 5) ^ j * p1 - 1) * (a + (1 / 5) ^ j * p1 - 1)
        + (b + (1 / 5) ^ j * p2 - 2) * (b + (1 / 5) ^ j * p2 - 2)
      ≤ (a - 1) * (a - 1) + (b - 2) * (b - 2)
        + 0.0001 * (1 / 5) ^ j * (2 * (a - 1) * p1 + 2 * (b - 2) * p2))
    (hfail : j = 1 → ¬ ((a + p1 - 1) * (a + p1 - 1) + (b + p2 - 2) * (b + p2 - 2)
      ≤ (a - 1) * (a - 1) + (b - 2) * (b - 2)
        + 0.0001 * (2 * (a - 1) * p1 + 2 * (b - 2) * p2))) :
    lineSearchOf (scenarioOne sqrt) defaultOptions s (stepOut2 p1 p2)
      = .ok (Dbl.fin ((1 / 5) ^ j), (j : Int)) := by
  unfold lineSearchOf
  rw [muOf_scenarioOne sqrt s a b B11 B12 B21 B22 p1 p2 hx hB hmu hneg, hx]
  have hp : (stepOut2 p1 p2).PRIMAL = vec2 p1 p2 := rfl
  have htau : defaultOptions.tau = 1 / 5 := by norm_num [defaultOptions]
  rw [hp]
  have h := lineSearch_ok_of_first (scenarioOne sqrt) defaultOptions (vec2 a b) (vec2 p1 p2) 0
    (T1 (scenarioOne sqrt) ((scenarioOne sqrt).F (vec2 a b)) 0
      (evalG (scenarioOne sqrt) (vec2 a b)))
    (DT1 (scenarioOne sqrt) 0 (evalG (scenarioOne sqrt) (vec2 a b))
      ((scenarioOne sqrt).gradF (vec2 a b)) (vec2 p1 p2))
    j (by
      rcases hj with h | h
      · exact Or.inl h
      · right
        rw [h]
        decide)
    (by
      rw [armijo_scenarioOne, htau]
      exact decide_eq_true hpass)
    (by
      intro i hi
      have hj1 : j = 1 := by omega
      have hi0 : i = 0 := by omega
      subst hi0
      rw [armijo_scenarioOne, htau]
      apply decide_eq_false
      have := hfail hj1
      simpa using this)
  rw [htau] at h
  exact h

theorem qp_scenarioOne (sqrt : Dbl → Dbl) (s : State 2 0) (a b B11 B12 B21 B22 : ℚ)
    (hx : s.x = vec2 a b) (hB : s.Bk = mat2 B11 B12 B21 B22)
    (hdet : B11 * B22 - B12 * B21 ≠ 0) :
    (scenarioOne sqrt).qp_solver (qpInput (scenarioOne sqrt) s (evalG (scenarioOne sqrt) s.x)
      (evalJ (scenarioOne sqrt) s.x) ((scenarioOne sqrt).gradF s.x))
      = some (stepOut2
          ((B12 * (2 * (b - 2)) - B22 * (2 * (a - 1))) / (B11 * B22 - B12 * B21))
          ((B21 * (2 * (a - 1)) - B11 * (2 * (b - 2))) / (B11 * B22 - B12 * B21))) := by
  have hg : (scenarioOne sqrt).gradF s.x = vec2 (2 * (a - 1)) (2 * (b - 2)) := by
    rw [hx, scenarioOne_gradF]
  rw [hg]
  have hq : (scenarioOne sqrt).qp_solver = qpSolver2 := rfl
  rw [hq]
  have hGJ : (scenarioOne sqrt).GJ = none := rfl
  simp [qpSolver2, qpInput, hGJ, hB, mat2, vec2, stepOut2, hdet, cons_fin_eq_toVec]

theorem normdxOf_scenarioOne (sqrt : Dbl → Dbl) (p1 p2 al : ℚ) :
    normdxOf (scenarioOne sqrt) (stepOut2 p1 p2) (Dbl.fin al)
      = sqrt (Dbl.fin (p1 * al * (p1 * al) + p2 * al * (p2 * al))) := by
  have hp : (stepOut2 p1 p2).PRIMAL = vec2 p1 p2 := rfl
  unfold normdxOf norm_2
  rw [hp, vscale_vec2, inner_prod_vec2]
  rfl

theorem gradLOf_scenarioOne (sqrt : Dbl → Dbl) (s : State 2 0) (a b p1 p2 : ℚ)
    (hx : s.x = vec2 a b) :
    gradLOf (scenarioOne sqrt) s (stepOut2 p1 p2) = vec2 (2 * (a - 1)) (2 * (b - 2)) := by
  have hGJ : (scenarioOne sqrt).GJ = none := rfl
  unfold gradLOf
  rw [hx, scenarioOne_gradF]
  apply vec2_ext <;> simp [JtLambda, hGJ, stepOut2, vsub, vec2]

theorem normgradLOf_scenarioOne (sqrt : Dbl → Dbl) (s : State 2 0) (a b p1 p2 : ℚ)
    (hx : s.x = vec2 a b) :
    normgradLOf (scenarioOne sqrt) s (stepOut2 p1 p2)
      = sqrt (Dbl.fin (2 * (a - 1) * (2 * (a - 1)) + 2 * (b - 2) * (2 * (b - 2)))) := by
  unfold normgradLOf norm_2
  rw [gradLOf_scenarioOne sqrt s a b p1 p2 hx, inner_prod_vec2]
  rfl

theorem ykOf_scenarioOne (sqrt : Dbl → Dbl) (s : State 2 0) (a b p1 p2 al : ℚ)
    (hx : s.x = vec2 a b) (hlx : s.lambda_x_k = fun _ => 0) :
    ykOf (scenarioOne sqrt) s (stepOut2 p1 p2) (Dbl.fin al)
      = vec2 (2 * (p1 * al)) (2 * (p2 * al)) := by
  have hGJ : (scenarioOne sqrt).GJ = none := rfl
  have hp : (stepOut2 p1 p2).PRIMAL = vec2 p1 p2 := rfl
  unfold ykOf
  rw [gradLOf_scenarioOne sqrt s a b p1 p2 hx, hx, hp, vscale_vec2, vadd_vec2,
    scenarioOne_gradF, hlx]
  apply vec2_ext <;> simp [JtLambda, hGJ, stepOut2, vsub, vec2, blend, vadd, smul] <;> ring

theorem iteration_scenarioOne_next (sqrt : Dbl → Dbl) (hs : SqrtResolves sqrt) (s : State 2 0)
    (a b B11 B12 B21 B22 p1 p2 al C11 C12 C21 C22 : ℚ) (j : Int)
    (hx : s.x = vec2 a b) (hB : s.Bk = mat2 B11 B12 B21 B22)
    (hlx : s.lambda_x_k = fun _ => 0) (hk : s.k + 1 < 100)
    (hqp : (scenarioOne sqrt).qp_solver (qpInput (scenarioOne sqrt) s
      (evalG (scenarioOne sqrt) s.x) (evalJ (scenarioOne sqrt) s.x)
      ((scenarioOne sqrt).gradF s.x)) = some (stepOut2 p1 p2))
    (hls : lineSearchOf (scenarioOne sqrt) defaultOptions s (stepOut2 p1 p2)
      = .ok (Dbl.fin al, j))
    (hdx : 1e-24 ≤ p1 * al * (p1 * al) + p2 * al * (p2 * al))
    (hgl : 1e-24 ≤ 2 * (a - 1) * (2 * (a - 1)) + 2 * (b - 2) * (2 * (b - 2)))
    (hbfgs : bfgsUpdate (mat2 B11 B12 B21 B22) (vec2 (p1 * al) (p2 * al))
      (vec2 (2 * (p1 * al)) (2 * (p2 * al))) = mat2 C11 C12 C21 C22) :
    iteration (scenarioOne sqrt) defaultOptions s
      = .ok (.next { reevaluatedState (scenarioOne sqrt) s (stepOut2 p1 p2) (Dbl.fin al) with
          Bk := mat2 C11 C12 C21 C22 }) := by
  rw [iteration_eq_afterLineSearch _ _ _ _ _ _ hqp hls]
  have h1 : ¬ (normdxOf (scenarioOne sqrt) (stepOut2 p1 p2) (Dbl.fin al)
      < Dbl.fin defaultOptions.toldx) := by
    rw [normdxOf_scenarioOne]
    exact hs.2 _ hdx
  have h2 : ¬ (normgradLOf (scenarioOne sqrt) s (stepOut2 p1 p2)
      < Dbl.fin defaultOptions.tolgl) := by
    rw [normgradLOf_scenarioOne sqrt s a b p1 p2 hx]
    exact hs.2 _ hgl
  have h3 : ¬ (s.k + 1 ≥ defaultOptions.maxiter) := by
    have hm : defaultOptions.maxiter = 100 := rfl
    rw [hm]
    omega
  rw [afterLineSearch_next_bfgs (scenarioOne sqrt) defaultOptions s _ _ _ rfl rfl h1 h2 h3]
  have hp : (stepOut2 p1 p2).PRIMAL = vec2 p1 p2 := rfl
  rw [ykOf_scenarioOne sqrt s a b p1 p2 al hx hlx, hB, hp, vscale_vec2, hbfgs]

theorem iteration_scenarioOne_stop (sqrt : Dbl → Dbl) (hs : SqrtResolves sqrt) (s : State 2 0)
    (hqp : (scenarioOne sqrt).qp_solver (qpInput (scenarioOne sqrt) s
      (evalG (scenarioOne sqrt) s.x) (evalJ (scenarioOne sqrt) s.x)
      ((scenarioOne sqrt).gradF s.x)) = some (stepOut2 0 0))
    (hls : lineSearchOf (scenarioOne sqrt) defaultOptions s (stepOut2 0 0)
      = .ok (Dbl.fin 1, 0)) :
    iteration (scenarioOne sqrt) defaultOptions s
      = .ok (.stop (steppedState (scenarioOne sqrt) s (stepOut2 0 0) (Dbl.fin 1)) .smallDx) := by
  rw [iteration_eq_afterLineSearch _ _ _ _ _ _ hqp hls]
  have h0 : stopRequested (scenarioOne sqrt) s (stepOut2 0 0) (Dbl.fin 1) 0 = false := rfl
  have h1 : normdxOf (scenarioOne sqrt) (stepOut2 0 0) (Dbl.fin 1)
      < Dbl.fin defaultOptions.toldx := by
    rw [normdxOf_scenarioOne]
    have e : (0 : ℚ) * 1 * (0 * 1) + 0 * 1 * (0 * 1) = 0 := by norm_num
    rw [e, hs.1]
    simp [defaultOptions]
    norm_num
  unfold afterLineSearch
  rw [h0]
  simp [h1]

theorem bfgsUpdate_scenarioOne0 :
    bfgsUpdate (mat2 1 0 0 1) (vec2 (2 * (1 / 5)) (4 * (1 / 5)))
      (vec2 (2 * (2 * (1 / 5))) (2 * (4 * (1 / 5)))) = mat2 (6 / 5) (2 / 5) (2 / 5) (9 / 5) := by
  funext i j
  fin_cases i <;> fin_cases j <;>
    simp [bfgsUpdate, rk, thetak, ydx, dxBdx, Bdx, mat2, vec2, madd, msub, mdiv, outer_prod,
      smul, vadd, Fin.sum_univ_two] <;> norm_num

theorem bfgsUpdate_scenarioOne1 :
    bfgsUpdate (mat2 (6 / 5) (2 / 5) (2 / 5) (9 / 5)) (vec2 (3 / 5 * 1) (6 / 5 * 1))
      (vec2 (2 * (3 / 5 * 1)) (2 * (6 / 5 * 1))) = mat2 (6 / 5) (2 / 5) (2 / 5) (9 / 5) := by
  funext i j
  fin_cases i <;> fin_cases j <;>
    simp [bfgsUpdate, rk, thetak, ydx, dxBdx, Bdx, mat2, vec2, madd, msub, mdiv, outer_prod,
      smul, vadd, Fin.sum_univ_two] <;> norm_num

theorem iteration_scenarioOne0 (sqrt : Dbl → Dbl) (hs : SqrtResolves sqrt) :
    iteration (scenarioOne sqrt) defaultOptions scenarioState0
      = .ok (.next (scenarioState1 sqrt)) := by
  have hx : scenarioState0.x = vec2 0 0 := rfl
  have hB : scenarioState0.Bk = mat2 1 0 0 1 := eye_two
  have hls := lineSearchOf_scenarioOne sqrt scenarioState0 0 0 1 0 0 1 2 4 1 hx hB rfl
    (by norm_num) (Or.inr rfl) (by norm_num) (fun _ => by norm_num)
  have e : ((1 : ℚ) / 5) ^ 1 = 1 / 5 := by norm_num
  rw [e] at hls
  exact iteration_scenarioOne_next sqrt hs scenarioState0 0 0 1 0 0 1 2 4 (1 / 5)
    (6 / 5) (2 / 5) (2 / 5) (9 / 5) _ hx hB rfl (by decide) (qp_scenarioOne0 sqrt) hls
    (by norm_num) (by norm_num) bfgsUpdate_scenarioOne0

theorem scenarioState1_x (sqrt : Dbl → Dbl) : (scenarioState1 sqrt).x = vec2 (2 / 5) (4 / 5) := by
  show vadd (vec2 0 0) (vscale (vec2 2 4) (Dbl.fin (1 / 5))) = _
  rw [vscale_vec2, vadd_vec2]
  norm_num

theorem blend_zero {n : ℕ} (al : ℚ) :
    blend (Dbl.fin al) (fun _ : Fin n => (0 : Dbl)) (fun _ => 0) = fun _ => 0 := by
  funext i
  simp [blend, vadd, smul]

theorem iteration_scenarioOne1 (sqrt : Dbl → Dbl) (hs : SqrtResolves sqrt) :
    iteration (scenarioOne sqrt) defaultOptions (scenarioState1 sqrt)
      = .ok (.next (scenarioState2 sqrt)) := by
  have hx := scenarioState1_x sqrt
  have hB : (scenarioState1 sqrt).Bk = mat2 (6 / 5) (2 / 5) (2 / 5) (9 / 5) := rfl
  have hlx : (scenarioState1 sqrt).lambda_x_k = fun _ => 0 := blend_zero (1 / 5)
  have hk : (scenarioState1 sqrt).k = 0 + 1 := rfl
  have hqp := qp_scenarioOne sqrt (scenarioState1 sqrt) (2 / 5) (4 / 5) (6 / 5) (2 / 5) (2 / 5)
    (9 / 5) hx hB (by norm_num)
  have e1 : stepOut2
      ((2 / 5 * (2 * (4 / 5 - 2)) - 9 / 5 * (2 * (2 / 5 - 1))) / (6 / 5 * (9 / 5) - 2 / 5 * (2 / 5)))
      ((2 / 5 * (2 * (2 / 5 - 1)) - 6 / 5 * (2 * (4 / 5 - 2))) / (6 / 5 * (9 / 5) - 2 / 5 * (2 / 5)))
      = stepOut2 (3 / 5) (6 / 5) := by norm_num
  rw [e1] at hqp
  have hls := lineSearchOf_scenarioOne sqrt (scenarioState1 sqrt) (2 / 5) (4 / 5) (6 / 5) (2 / 5)
    (2 / 5) (9 / 5) (3 / 5) (6 / 5) 0 hx hB rfl (by norm_num) (Or.inl rfl) (by norm_num)
    (fun h => absurd h (by decide))
  have e : ((1 : ℚ) / 5) ^ 0 = 1 := by norm_num
  rw [e] at hls
  exact iteration_scenarioOne_next sqrt hs (scenarioState1 sqrt) (2 / 5) (4 / 5) (6 / 5) (2 / 5)
    (2 / 5) (9 / 5) (3 / 5) (6 / 5) 1 (6 / 5) (2 / 5) (2 / 5) (9 / 5) _ hx hB hlx
    (by rw [hk]; decide) hqp hls (by norm_num) (by norm_num) bfgsUpdate_scenarioOne1

theorem scenarioState2_x (sqrt : Dbl → Dbl) : (scenarioState2 sqrt).x = vec2 1 2 := by
  show vadd (scenarioState1 sqrt).x (vscale (vec2 (3 / 5) (6 / 5)) (Dbl.fin 1)) = _
  rw [scenarioState1_x, vscale_vec2, vadd_vec2]
  norm_num

theorem iteration_scenarioOne2 (sqrt : Dbl → Dbl) (hs : SqrtResolves sqrt) :
    iteration (scenarioOne sqrt) defaultOptions (scenarioState2 sqrt)
      = .ok (.stop (steppedState (scenarioOne sqrt) (scenarioState2 sqrt) (stepOut2 0 0)
          (Dbl.fin 1)) .smallDx) := by
  have hx := scenarioState2_x sqrt
  have hB : (scenarioState2 sqrt).Bk = mat2 (6 / 5) (2 / 5) (2 / 5) (9 / 5) := rfl
  have hqp := qp_scenarioOne sqrt (scenarioState2 sqrt) 1 2 (6 / 5) (2 / 5) (2 / 5)
    (9 / 5) hx hB (by norm_num)
  have e1 : stepOut2
      ((2 / 5 * (2 * (2 - 2)) - 9 / 5 * (2 * (1 - 1))) / (6 / 5 * (9 / 5) - 2 / 5 * (2 / 5)))
      ((2 / 5 * (2 * (1 - 1)) - 6 / 5 * (2 * (2 - 2))) / (6 / 5 * (9 / 5) - 2 / 5 * (2 / 5)))
      = stepOut2 0 0 := by norm_num
  rw [e1] at hqp
  have hls := lineSearchOf_scenarioOne sqrt (scenarioState2 sqrt) 1 2 (6 / 5) (2 / 5)
    (2 / 5) (9 / 5) 0 0 0 hx hB rfl (by norm_num) (Or.inl rfl) (by norm_num)
    (fun h => absurd h (by decide))
  have e : ((1 : ℚ) / 5) ^ 0 = 1 := by norm_num
  rw [e] at hls
  exact iteration_scenarioOne_stop sqrt hs (scenarioState2 sqrt) hqp hls

theorem scenarioOne_final (sqrt : Dbl → Dbl) :
    (steppedState (scenarioOne sqrt) (scenarioState2 sqrt) (stepOut2 0 0) (Dbl.fin 1)).x
        = vec2 1 2 ∧
      (steppedState (scenarioOne sqrt) (scenarioState2 sqrt) (stepOut2 0 0) (Dbl.fin 1)).fk
        = Dbl.fin 0 ∧
      (steppedState (scenarioOne sqrt) (scenarioState2 sqrt) (stepOut2 0 0) (Dbl.fin 1)).k
        = 3 := by
  refine ⟨?_, ?_, rfl⟩
  · show vadd (scenarioState2 sqrt).x (vscale (vec2 0 0) (Dbl.fin 1)) = _
    rw [scenarioState2_x, vscale_vec2, vadd_vec2]
    norm_num
  · show (scenarioOne sqrt).F (scenarioState2 sqrt).x = _
    rw [scenarioState2_x, scenarioOne_F]
    norm_num

theorem run_scenarioOne (sqrt : Dbl → Dbl) (hs : SqrtResolves sqrt) :
    run (scenarioOne sqrt) defaultOptions 0 0
      = .ok (steppedState (scenarioOne sqrt) (scenarioState2 sqrt) (stepOut2 0 0) (Dbl.fin 1),
          .smallDx) := by
  rw [run_of_initState (scenarioOne sqrt) _ scenarioState0 rfl (initState_scenarioOne sqrt)]
  have hm : defaultOptions.maxiter.toNat + 1 = 98 + 1 + 1 + 1 := rfl
  rw [hm, mainLoop_next _ _ _ _ (iteration_scenarioOne0 sqrt hs),
    mainLoop_next _ _ _ _ (iteration_scenarioOne1 sqrt hs)]
  exact mainLoop_stop _ _ _ _ _ (iteration_scenarioOne2 sqrt hs) _

theorem evaluatePasses_scenarioOne (sqrt : Dbl → Dbl) (hs : SqrtResolves sqrt) :
    evaluatePasses (scenarioOne sqrt) defaultOptions 0 0 = 3 := by
  have hc : (scenarioOne sqrt).checkInitialBounds = true := rfl
  have hm : defaultOptions.maxiter.toNat + 1 = 98 + 1 + 1 + 1 := rfl
  unfold evaluatePasses
  rw [if_neg (not_not.mpr ⟨rfl, rfl⟩), if_neg (not_not.mpr hc), initState_scenarioOne]
  simp only
  rw [hm, mainLoopPasses, iteration_scenarioOne0 sqrt hs]
  simp only
  rw [mainLoopPasses, iteration_scenarioOne1 sqrt hs]
  simp only
  rw [mainLoopPasses, iteration_scenarioOne2 sqrt hs]
  rfl

theorem evaluate_scenarioOne (sqrt : Dbl → Dbl) (hs : SqrtResolves sqrt) :
    evaluate (scenarioOne sqrt) defaultOptions 0 0
      = .ok { COST := Dbl.fin 0, X_OPT := vec2 1 2 } := by
  obtain ⟨h1, h2, -⟩ := scenarioOne_final sqrt
  unfold evaluate
  rw [run_scenarioOne sqrt hs]
  simp only
  rw [h1, h2]

/-- Counterexample to C15: on `f(x) = (x₁-1)² + (x₂-2)²` from `x0 = (0,0)` with
the default options and the exact QP solution, the run ends in its third pass
with `x = (1,2)` and cost `0`, but by the test `normdx < toldx` (small step):
the QP step there is zero, and that test comes before the test of `normgradL`.
The run does not end by the small-gradient test. -/
theorem C15_scenario_one_stops_on_small_step :
    SqrtResolves gridSqrt ∧
      (∃ s, run (scenarioOne gridSqrt) defaultOptions 0 0 = .ok (s, .smallDx) ∧
        s.x = vec2 1 2 ∧ s.fk = Dbl.fin 0 ∧ s.k = 3) ∧
      ¬ ∃ s, run (scenarioOne gridSqrt) defaultOptions 0 0 = .ok (s, .smallGradL) := by
  refine ⟨gridSqrt_resolves, ⟨_, run_scenarioOne gridSqrt gridSqrt_resolves,
    scenarioOne_final gridSqrt⟩, ?_⟩
  rintro ⟨s, h⟩
  rw [run_scenarioOne gridSqrt gridSqrt_resolves] at h
  simp at h

/-- C15, amended: for `f(x) = (x₁-1)² + (x₂-2)²` with no constraints and infinite
bounds, `x0 = (0,0)`, the default options (BFGS), the exact solution of each QP
subproblem, and a square root that maps zero to zero and does not return less
than `10⁻¹²` for an argument of at least `10⁻²⁴`, `evaluate` ends after exactly
three passes of the main loop (within 5) with `x_opt = (1,2)` and `cost = 0`,
and the loop is left by the small-step test `normdx < toldx`. -/
theorem C15_scenario_one (sqrt : Dbl → Dbl) (hs : SqrtResolves sqrt) :
    (∃ s, run (scenarioOne sqrt) defaultOptions 0 0 = .ok (s, .smallDx) ∧ s.k = 3) ∧
      evaluatePasses (scenarioOne sqrt) defaultOptions 0 0 = 3 ∧
      evaluate (scenarioOne sqrt) defaultOptions 0 0
        = .ok { COST := Dbl.fin 0, X_OPT := vec2 1 2 } ∧
      (scenarioOne sqrt).F (vec2 1 2) = Dbl.fin 0 ∧
      (scenarioOne sqrt).gradF (vec2 1 2) = vec2 0 0 := by
  refine ⟨⟨_, run_scenarioOne sqrt hs, (scenarioOne_final sqrt).2.2⟩,
    evaluatePasses_scenarioOne sqrt hs, evaluate_scenarioOne sqrt hs, ?_, ?_⟩
  · rw [scenarioOne_F]
    norm_num
  · rw [scenarioOne_gradF]
    norm_num

/-- Witness of C15, amended: the square root rounded down to a multiple of
`10⁻¹²`. -/
theorem C15_scenario_one_witness :
    SqrtResolves gridSqrt ∧
      evaluate (scenarioOne gridSqrt) defaultOptions 0 0
        = .ok { COST := Dbl.fin 0, X_OPT := vec2 1 2 } :=
  ⟨gridSqrt_resolves, (C15_scenario_one gridSqrt gridSqrt_resolves).2.2.1⟩

end CasADi
